import Mathlib

/-!
Verification of the TOOT-OTTO game engine
(`src/connect-four-cli/src/toot_otto.rs`) against its natural-language
specification.

Modelling conventions:
* Rust machine integers (`i32`, `i64`) are modelled as `Int`; every value
  arising in the verified claims stays far below the overflow bounds of the
  corresponding machine type.
* `usize` casts of possibly negative `i64` values (`t_move as usize`) are
  modelled with two's-complement wrap-around.
* Fallible operations (`Result<_, ()>`) are modelled with `Option`; the
  mutated receiver is returned alongside the success value, and `none`
  stands for `Err(())`, on which path the Rust code leaves the receiver
  untouched.
* The thread-local random generator is modelled by an explicit draw
  sequence `seq : Nat → Nat` together with a running draw counter; each
  random draw consumes one position of the sequence.
-/

namespace TootOtto

/-- Embeds `ChipType` from the source: the two chip symbols `T` and `O`. -/
inductive ChipType where
  | T
  | O
deriving DecidableEq

/-- The game lifecycle enum `State` from the source. -/
inductive GState where
  | Done
  | Running
  | Busy
  | NonStarted
deriving DecidableEq

/-- Embeds `Grid` from the source: an 80-slot backing array storing an
`num_rows × num_cols` board.  Cell `(row, col)` lives at backing index
`col * num_rows + (num_rows - 1 - row)` (row 0 is the visual top, physical
storage indexes from the bottom). -/
structure Grid where
  items : List Int
  num_rows : Nat
  num_cols : Nat
deriving DecidableEq

namespace Grid

/-- Embeds `Grid::new`: all 80 backing slots are zero. -/
def new (row_size col_size : Nat) : Grid :=
  { items := List.replicate 80 0, num_rows := row_size, num_cols := col_size }

/-- Embeds `Grid::get`. -/
def get (g : Grid) (row col : Nat) : Int :=
  g.items.getD (col * g.num_rows + (g.num_rows - 1 - row)) 0

/-- Embeds `Grid::set`. -/
def set (g : Grid) (row col : Nat) (val : Int) : Grid :=
  { g with items := g.items.set (col * g.num_rows + (g.num_rows - 1 - row)) val }

/-- The loop of `Grid::insert_chip` (`for r in (0..num_rows).rev()`):
`insertFrom g col v n` scans rows `n-1, n-2, …, 0` for the first empty
cell. -/
def insertFrom (g : Grid) (col : Nat) (v : Int) : Nat → Option (Grid × Nat)
  | 0 => none
  | r + 1 => if g.get r col = 0 then some (g.set r col v, r) else insertFrom g col v r

/-- Embeds `Grid::insert_chip`: `Ok(row)` becomes `some (updated grid, row)` and
`Err(())` becomes `none`. -/
def insert_chip (g : Grid) (col : Nat) (v : Int) : Option (Grid × Nat) :=
  insertFrom g col v g.num_rows

/-- The gravity invariant for column `col` holding exactly `k` chips: the
occupied cells are precisely the `k` bottom-most rows. -/
def gravityCol (g : Grid) (col k : Nat) : Prop :=
  k ≤ g.num_rows ∧ ∀ r, r < g.num_rows → (g.get r col ≠ 0 ↔ g.num_rows - k ≤ r)

instance (g : Grid) (col k : Nat) : Decidable (gravityCol g col k) := by
  unfold gravityCol; infer_instance

end Grid

/-- Embeds `DummyGrid` from the source (the chip-symbol board); structurally
identical to `Grid`. -/
structure DummyGrid where
  items : List Int
  num_rows : Nat
  num_cols : Nat
deriving DecidableEq

namespace DummyGrid

/-- Embeds `DummyGrid::new`. -/
def new (row_size col_size : Nat) : DummyGrid :=
  { items := List.replicate 80 0, num_rows := row_size, num_cols := col_size }

/-- Embeds `DummyGrid::get`. -/
def get (g : DummyGrid) (row col : Nat) : Int :=
  g.items.getD (col * g.num_rows + (g.num_rows - 1 - row)) 0

/-- Embeds `DummyGrid::set`. -/
def set (g : DummyGrid) (row col : Nat) (val : Int) : DummyGrid :=
  { g with items := g.items.set (col * g.num_rows + (g.num_rows - 1 - row)) val }

/-- The loop of `DummyGrid::insert_chip`. -/
def insertFrom (g : DummyGrid) (col : Nat) (v : Int) : Nat → Option (DummyGrid × Nat)
  | 0 => none
  | r + 1 => if g.get r col = 0 then some (g.set r col v, r) else insertFrom g col v r

/-- Embeds `DummyGrid::insert_chip`. -/
def insert_chip (g : DummyGrid) (col : Nat) (v : Int) : Option (DummyGrid × Nat) :=
  insertFrom g col v g.num_rows

/-- Gravity invariant for a `DummyGrid` column. -/
def gravityCol (g : DummyGrid) (col k : Nat) : Prop :=
  k ≤ g.num_rows ∧ ∀ r, r < g.num_rows → (g.get r col ≠ 0 ↔ g.num_rows - k ≤ r)

instance (g : DummyGrid) (col k : Nat) : Decidable (gravityCol g col k) := by
  unfold gravityCol; infer_instance

end DummyGrid

section InsertGravity

/-- Under the gravity invariant the scan may start anywhere at or above the
lowest empty cell without changing the result. -/
theorem Grid.insertFrom_of_gravity (g : Grid) (col k : Nat) (v : Int)
    (h : g.gravityCol col k) :
    ∀ m, g.num_rows - k ≤ m → m ≤ g.num_rows →
      g.insertFrom col v m = g.insertFrom col v (g.num_rows - k) := by
  intro m
  induction m with
  | zero =>
    intro h1 _
    have h0 : g.num_rows - k = 0 := by omega
    rw [h0]
  | succ n ih =>
    intro h1 h2
    rcases Nat.lt_or_ge n (g.num_rows - k) with hlt | hge
    · have : g.num_rows - k = n + 1 := by omega
      rw [this]
    · have hn : g.get n col ≠ 0 := by
        have := (h.2 n (by omega)).mpr hge
        exact this
      rw [Grid.insertFrom, if_neg hn]
      exact ih hge (by omega)

/-- Same statement for `DummyGrid`. -/
theorem DummyGrid.dummy_insertFrom_of_gravity (g : DummyGrid) (col k : Nat) (v : Int)
    (h : g.gravityCol col k) :
    ∀ m, g.num_rows - k ≤ m → m ≤ g.num_rows →
      g.insertFrom col v m = g.insertFrom col v (g.num_rows - k) := by
  intro m
  induction m with
  | zero =>
    intro h1 _
    have h0 : g.num_rows - k = 0 := by omega
    rw [h0]
  | succ n ih =>
    intro h1 h2
    rcases Nat.lt_or_ge n (g.num_rows - k) with hlt | hge
    · have : g.num_rows - k = n + 1 := by omega
      rw [this]
    · have hn : g.get n col ≠ 0 := by
        have := (h.2 n (by omega)).mpr hge
        exact this
      rw [DummyGrid.insertFrom, if_neg hn]
      exact ih hge (by omega)

theorem Grid.insert_chip_of_gravity (g : Grid) (col k : Nat) (v : Int)
    (h : g.gravityCol col k) :
    (k < g.num_rows →
      g.insert_chip col v = some (g.set (g.num_rows - 1 - k) col v, g.num_rows - 1 - k)) ∧
    (k = g.num_rows → g.insert_chip col v = none) := by
  constructor
  · intro hk
    have hstep := g.insertFrom_of_gravity col k v h g.num_rows (by omega) (by omega)
    have hrk : g.num_rows - k = (g.num_rows - 1 - k) + 1 := by omega
    have hempty : g.get (g.num_rows - 1 - k) col = 0 := by
      by_contra hne
      have := (h.2 (g.num_rows - 1 - k) (by omega)).mp hne
      omega
    rw [Grid.insert_chip, hstep, hrk, Grid.insertFrom, if_pos hempty]
  · intro hk
    have hstep := g.insertFrom_of_gravity col k v h g.num_rows (by omega) (by omega)
    rw [Grid.insert_chip, hstep]
    have : g.num_rows - k = 0 := by omega
    rw [this, Grid.insertFrom]

theorem DummyGrid.dummy_insert_chip_of_gravity (g : DummyGrid) (col k : Nat) (v : Int)
    (h : g.gravityCol col k) :
    (k < g.num_rows →
      g.insert_chip col v = some (g.set (g.num_rows - 1 - k) col v, g.num_rows - 1 - k)) ∧
    (k = g.num_rows → g.insert_chip col v = none) := by
  constructor
  · intro hk
    have hstep := g.dummy_insertFrom_of_gravity col k v h g.num_rows (by omega) (by omega)
    have hrk : g.num_rows - k = (g.num_rows - 1 - k) + 1 := by omega
    have hempty : g.get (g.num_rows - 1 - k) col = 0 := by
      by_contra hne
      have := (h.2 (g.num_rows - 1 - k) (by omega)).mp hne
      omega
    rw [DummyGrid.insert_chip, hstep, hrk, DummyGrid.insertFrom, if_pos hempty]
  · intro hk
    have hstep := g.dummy_insertFrom_of_gravity col k v h g.num_rows (by omega) (by omega)
    rw [DummyGrid.insert_chip, hstep]
    have : g.num_rows - k = 0 := by omega
    rw [this, DummyGrid.insertFrom]

end InsertGravity

/-- C1: For every board and every column containing `k` chips
(stacked by gravity, `0 ≤ k ≤ rows`), `insert_chip` succeeds and places the
new chip at row `rows - 1 - k` (the lowest empty cell, scanning from the
bottom-most row upward), returning that row index, when `k < rows`; and it
returns an error exactly when `k = rows` (on which path the Rust code
performs no write, leaving the grid unchanged).  Stated for both
`Grid::insert_chip` and `DummyGrid::insert_chip`. -/
theorem C1_insert_chip_gravity (g : Grid) (dg : DummyGrid) (col col' k k' : Nat) (v v' : Int)
    (hg : g.gravityCol col k) (hdg : dg.gravityCol col' k') :
    (k < g.num_rows →
      g.insert_chip col v = some (g.set (g.num_rows - 1 - k) col v, g.num_rows - 1 - k)) ∧
    (k = g.num_rows → g.insert_chip col v = none) ∧
    (k' < dg.num_rows →
      dg.insert_chip col' v' =
        some (dg.set (dg.num_rows - 1 - k') col' v', dg.num_rows - 1 - k')) ∧
    (k' = dg.num_rows → dg.insert_chip col' v' = none) := by
  obtain ⟨h1, h2⟩ := g.insert_chip_of_gravity col k v hg
  obtain ⟨h3, h4⟩ := dg.dummy_insert_chip_of_gravity col' k' v' hdg
  exact ⟨h1, h2, h3, h4⟩

/-- Closed witness for C1: a column with 0 chips on a 2×2 board receives the
chip at row 1; a full 1×1 column is rejected. -/
theorem C1_insert_chip_gravity_witness :
    (Grid.new 2 2).insert_chip 0 1 = some ((Grid.new 2 2).set 1 0 1, 1) ∧
    ((DummyGrid.new 1 1).set 0 0 1).insert_chip 0 1 = none := by
  have h := C1_insert_chip_gravity (Grid.new 2 2) ((DummyGrid.new 1 1).set 0 0 1)
    0 0 0 1 1 1 (by decide) (by decide)
  exact ⟨h.1 (by decide), h.2.2.2 (by decide)⟩

/-- Embeds `Game::player_move_dummy_translate`: chip symbol to cell value
(`T ↦ 1`, `O ↦ -1`).  The Rust method ignores `self`. -/
def dummyTranslate : ChipType → Int
  | ChipType.T => 1
  | ChipType.O => -1

/-- The `Game` struct from the source. -/
structure Game where
  grid : Grid
  dummy_grid : DummyGrid
  p1 : String
  p2 : String
  with_ai : Bool
  state : GState
  winner : String
  p_move : Int
  max_ai_depth : Nat

/-- Embeds `Game::new`. -/
def Game.new (row_size col_size : Nat) (with_ai : Bool) (p1_name p2_name : String)
    (max_depth : Nat) : Game :=
  let base : Game :=
    { grid := Grid.new row_size col_size
      dummy_grid := DummyGrid.new row_size col_size
      p1 := p1_name
      p2 := p2_name
      with_ai := false
      state := GState.Running
      winner := ""
      p_move := 0
      max_ai_depth := max_depth }
  if with_ai then { base with p2 := "Computer", with_ai := true } else base

/-- Embeds `Game::player_move_translate`: move parity to grid value. -/
def Game.player_move_translate (game : Game) : Int :=
  if game.p_move % 2 = 0 then 1 else -1

/-- The window cell `temp_r1[k]` of `check_win` / `ai_check_state`:
`k` steps to the right of `(i, j)`, out-of-bounds cells staying `0`. -/
def tempR (g : DummyGrid) (i j k : Nat) : Int :=
  if j + k < g.num_cols then g.get i (j + k) else 0

/-- Embeds `temp_b1[k]`: `k` steps below `(i, j)`. -/
def tempB (g : DummyGrid) (i j k : Nat) : Int :=
  if i + k < g.num_rows then g.get (i + k) j else 0

/-- Embeds `temp_br1[k]`: `k` steps down-right of `(i, j)`. -/
def tempBR (g : DummyGrid) (i j k : Nat) : Int :=
  if i + k < g.num_rows ∧ j + k < g.num_cols then g.get (i + k) (j + k) else 0

/-- Embeds `temp_br2[k]`: `k` steps up-right of `(i, j)` (the source guards with
`i as i64 - k as i64 >= 0`, i.e. `k ≤ i`). -/
def tempTR (g : DummyGrid) (i j k : Nat) : Int :=
  if k ≤ i ∧ j + k < g.num_cols then g.get (i - k) (j + k) else 0

/-- The eight-way pattern test of `check_win` at start cell `(i, j)`:
per direction (right, down, down-right, up-right) first `[T,O,O,T]`
(player 1 wins, `some 1`) then `[O,T,T,O]` (player 2 wins, `some (-1)`). -/
def cellWin (g : DummyGrid) (i j : Nat) : Option Int :=
  let T := dummyTranslate ChipType.T
  let O := dummyTranslate ChipType.O
  if tempR g i j 0 = T ∧ tempR g i j 1 = O ∧ tempR g i j 2 = O ∧ tempR g i j 3 = T then
    some 1
  else if tempR g i j 0 = O ∧ tempR g i j 1 = T ∧ tempR g i j 2 = T ∧ tempR g i j 3 = O then
    some (-1)
  else if tempB g i j 0 = T ∧ tempB g i j 1 = O ∧ tempB g i j 2 = O ∧ tempB g i j 3 = T then
    some 1
  else if tempB g i j 0 = O ∧ tempB g i j 1 = T ∧ tempB g i j 2 = T ∧ tempB g i j 3 = O then
    some (-1)
  else if tempBR g i j 0 = T ∧ tempBR g i j 1 = O ∧ tempBR g i j 2 = O ∧ tempBR g i j 3 = T then
    some 1
  else if tempBR g i j 0 = O ∧ tempBR g i j 1 = T ∧ tempBR g i j 2 = T ∧ tempBR g i j 3 = O then
    some (-1)
  else if tempTR g i j 0 = T ∧ tempTR g i j 1 = O ∧ tempTR g i j 2 = O ∧ tempTR g i j 3 = T then
    some 1
  else if tempTR g i j 0 = O ∧ tempTR g i j 1 = T ∧ tempTR g i j 2 = T ∧ tempTR g i j 3 = O then
    some (-1)
  else
    none

/-- The doubly nested scan loop of `check_win` with its early returns:
row-major over start cells. -/
def scanWin (g : DummyGrid) : Option Int :=
  (List.range g.num_rows).findSome? fun i =>
    (List.range g.num_cols).findSome? fun j => cellWin g i j

/-- Embeds `Game::check_win`: pattern scan first, then the draw check (`some 0`
only when the move count fills the board and the game is not already
`Done`). -/
def Game.check_win (game : Game) : Option Int :=
  match scanWin game.dummy_grid with
  | some w => some w
  | none =>
    if game.p_move = ((game.dummy_grid.num_rows * game.dummy_grid.num_cols : Nat) : Int) then
      match game.state with
      | GState.Done => none
      | _ => some 0
    else
      none

/-- Embeds `Game::make_move`.  `none` models both `Err(())` (full column) and the
`unwrap` panic on the dummy insert (unreachable when both grids agree). -/
def Game.make_move (game : Game) (chip_type : ChipType) (col_num : Nat) :
    Option (Game × Nat × Nat × Int) :=
  let grid_val := game.player_move_translate
  match game.grid.insert_chip col_num grid_val with
  | none => none
  | some (g', row) =>
    let chip_value := dummyTranslate chip_type
    match game.dummy_grid.insert_chip col_num chip_value with
    | none => none
    | some (dg', _) =>
      let game1 : Game := { game with grid := g', dummy_grid := dg', p_move := game.p_move + 1 }
      let game2 : Game :=
        match game1.check_win with
        | some w =>
          if w > 0 then { game1 with winner := game1.p1, state := GState.Done }
          else if w < 0 then { game1 with winner := game1.p2, state := GState.Done }
          else { game1 with winner := "Draw", state := GState.Done }
        | none => game1
      some (game2, row, (game2.p_move - 1).toNat, chip_value)

/-- Folding `make_move` over a list of (chip type, column) requests; `none`
as soon as one move is rejected. -/
def Game.applyMoves (game : Game) : List (ChipType × Nat) → Option Game
  | [] => some game
  | m :: rest =>
    match game.make_move m.1 m.2 with
    | none => none
    | some (g', _) => g'.applyMoves rest

/-- The four scan directions, in the source's per-cell order. -/
inductive Dir where
  | right
  | down
  | downRight
  | upRight
deriving DecidableEq

/-- The length-4 window starting at `(i, j)` in direction `d`
(out-of-bounds cells read as 0). -/
def windowCell (g : DummyGrid) (i j : Nat) : Dir → Nat → Int
  | Dir.right => tempR g i j
  | Dir.down => tempB g i j
  | Dir.downRight => tempBR g i j
  | Dir.upRight => tempTR g i j

/-- Spec-side reformulation of one window test, per the spec's words:
compare the window against the two target patterns `[T,O,O,T]` (`1,-1,-1,1`,
player 1 wins) and `[O,T,T,O]` (`-1,1,1,-1`, player 2 wins). -/
def specDirCheck (g : DummyGrid) (i j : Nat) (d : Dir) : Option Int :=
  if windowCell g i j d 0 = 1 ∧ windowCell g i j d 1 = -1 ∧
      windowCell g i j d 2 = -1 ∧ windowCell g i j d 3 = 1 then
    some 1
  else if windowCell g i j d 0 = -1 ∧ windowCell g i j d 1 = 1 ∧
      windowCell g i j d 2 = 1 ∧ windowCell g i j d 3 = -1 then
    some (-1)
  else
    none

/-- Spec-side reformulation of the whole scan, per the spec's words: first
match in scan order — row-major over start cells, then direction order
right → down → down-right → up-right — determines the winner. -/
def specScan (g : DummyGrid) : Option Int :=
  (List.range g.num_rows).findSome? fun i =>
    (List.range g.num_cols).findSome? fun j =>
      [Dir.right, Dir.down, Dir.downRight, Dir.upRight].findSome? (specDirCheck g i j)

theorem cellWin_eq_specDirCheck (g : DummyGrid) (i j : Nat) :
    cellWin g i j =
      [Dir.right, Dir.down, Dir.downRight, Dir.upRight].findSome? (specDirCheck g i j) := by
  simp only [cellWin, specDirCheck, windowCell, dummyTranslate, List.findSome?]
  split_ifs <;> rfl

theorem scanWin_eq_specScan (g : DummyGrid) : scanWin g = specScan g := by
  unfold scanWin specScan
  congr 1
  funext i
  congr 1
  funext j
  exact cellWin_eq_specDirCheck g i j

/-- A 6×7 board whose bottom row starts `T O O T` and is empty elsewhere. -/
def tootBoard : DummyGrid :=
  ((((DummyGrid.new 6 7).set 5 0 1).set 5 1 (-1)).set 5 2 (-1)).set 5 3 1

/-- A game holding `tootBoard` after its four chips were placed. -/
def tootGame : Game :=
  { Game.new 6 7 false "P1" "P2" 3 with dummy_grid := tootBoard, p_move := 4 }

/-- C2: The scan of `check_win` reports exactly the first length-4
window (row-major over start cells, then direction order right → down →
down-right → up-right, out-of-bounds cells read as empty) matching
`[T,O,O,T]` (`some 1`, player 1) or `[O,T,T,O]` (`some (-1)`, player 2);
in particular, a board whose bottom row starts `T O O T` and is empty
elsewhere is reported as player 1's win with no additional moves. -/
theorem C2_check_win_first_match :
    (∀ g : DummyGrid, scanWin g = specScan g) ∧ tootGame.check_win = some 1 :=
  ⟨scanWin_eq_specScan, by decide⟩

theorem cellWin_values (g : DummyGrid) (i j : Nat) (w : Int)
    (h : cellWin g i j = some w) : w = 1 ∨ w = -1 := by
  simp only [cellWin, dummyTranslate] at h
  split_ifs at h <;> simp_all

theorem scanWin_values (g : DummyGrid) (w : Int) (h : scanWin g = some w) :
    w = 1 ∨ w = -1 := by
  unfold scanWin at h
  obtain ⟨i, _, hi⟩ := List.exists_of_findSome?_eq_some h
  obtain ⟨j, _, hj⟩ := List.exists_of_findSome?_eq_some hi
  exact cellWin_values g i j w hj

/-- C3: `check_win` returns the draw result `some 0` iff no window
matches a winning pattern, the move count equals `rows × cols`, and the
game is not already `Done`; and since the pattern scan runs first, a
winning pattern present on the board-filling move is reported as that win,
never as a draw. -/
theorem C3_draw_exactly_when_full (game : Game) :
    (game.check_win = some 0 ↔
      scanWin game.dummy_grid = none ∧
      game.p_move = ((game.dummy_grid.num_rows * game.dummy_grid.num_cols : Nat) : Int) ∧
      game.state ≠ GState.Done) ∧
    (∀ w, scanWin game.dummy_grid = some w → game.check_win = some w) := by
  constructor
  · unfold Game.check_win
    rcases hscan : scanWin game.dummy_grid with _ | w
    · constructor
      · intro h
        refine ⟨rfl, ?_, ?_⟩
        · by_contra hfull
          rw [if_neg hfull] at h
          exact Option.noConfusion h
        · intro hdone
          rw [hdone] at h
          split_ifs at h
      · rintro ⟨-, hfull, hdone⟩
        rw [if_pos hfull]
        cases hstate : game.state <;> simp_all
    · constructor
      · intro h
        have := scanWin_values game.dummy_grid w hscan
        have hw : w = (0 : Int) := by
          simpa using h
        omega
      · rintro ⟨h0, -, -⟩
        exact Option.noConfusion h0
  · intro w hw
    unfold Game.check_win
    rw [hw]

/-- Closed witness for C3: the scan result on `tootBoard` propagates to
`check_win` via the theorem's second component. -/
theorem C3_draw_exactly_when_full_witness : tootGame.check_win = some 1 :=
  (C3_draw_exactly_when_full tootGame).2 1 (by decide)

/-- The weighted window value of `ai_check_state`
(`temp[0]*O + temp[1]*T + temp[2]*T + temp[3]*O`): the AI-favored
assignment `(O, T, T, O)` applied position-wise. -/
def windowWeight (g : DummyGrid) (i j : Nat) (d : Dir) : Int :=
  windowCell g i j d 0 * dummyTranslate ChipType.O +
    windowCell g i j d 1 * dummyTranslate ChipType.T +
    windowCell g i j d 2 * dummyTranslate ChipType.T +
    windowCell g i j d 3 * dummyTranslate ChipType.O

/-- The eight-way win test of `ai_check_state` at `(i, j)`: the player
pattern `[T,O,O,T]` yields `-4`, the AI pattern `[O,T,T,O]` yields `4`.
Unlike `check_win`, the caller keeps scanning and only records the value. -/
def aiCellWin (g : DummyGrid) (i j : Nat) : Option Int :=
  let T := dummyTranslate ChipType.T
  let O := dummyTranslate ChipType.O
  if tempR g i j 0 = T ∧ tempR g i j 1 = O ∧ tempR g i j 2 = O ∧ tempR g i j 3 = T then
    some (-4)
  else if tempR g i j 0 = O ∧ tempR g i j 1 = T ∧ tempR g i j 2 = T ∧ tempR g i j 3 = O then
    some 4
  else if tempB g i j 0 = T ∧ tempB g i j 1 = O ∧ tempB g i j 2 = O ∧ tempB g i j 3 = T then
    some (-4)
  else if tempB g i j 0 = O ∧ tempB g i j 1 = T ∧ tempB g i j 2 = T ∧ tempB g i j 3 = O then
    some 4
  else if tempBR g i j 0 = T ∧ tempBR g i j 1 = O ∧ tempBR g i j 2 = O ∧ tempBR g i j 3 = T then
    some (-4)
  else if tempBR g i j 0 = O ∧ tempBR g i j 1 = T ∧ tempBR g i j 2 = T ∧ tempBR g i j 3 = O then
    some 4
  else if tempTR g i j 0 = T ∧ tempTR g i j 1 = O ∧ tempTR g i j 2 = O ∧ tempTR g i j 3 = T then
    some (-4)
  else if tempTR g i j 0 = O ∧ tempTR g i j 1 = T ∧ tempTR g i j 2 = T ∧ tempTR g i j 3 = O then
    some 4
  else
    none

/-- One iteration of the `ai_check_state` cell loop on the accumulator
`(win_val, chain_val)`: add the four cubed window weights, then run the
eight-way win test (overwriting `win_val` on a match). -/
def aiCellStep (g : DummyGrid) (i j : Nat) (acc : Int × Int) : Int × Int :=
  let tr := windowWeight g i j Dir.right
  let tb := windowWeight g i j Dir.down
  let tbr := windowWeight g i j Dir.downRight
  let ttr := windowWeight g i j Dir.upRight
  let chain := acc.2 + tr * tr * tr + tb * tb * tb + tbr * tbr * tbr + ttr * ttr * ttr
  let win :=
    match aiCellWin g i j with
    | some w => w
    | none => acc.1
  (win, chain)

/-- Embeds `Game::ai_check_state`: row-major fold over all cells starting from
`(win_val, chain_val) = (0, 0)`.  The Rust method ignores `self` except for
the two chip constants. -/
def ai_check_state (g : DummyGrid) : Int × Int :=
  (List.range g.num_rows).foldl
    (fun acc i => (List.range g.num_cols).foldl (fun a j => aiCellStep g i j a) acc)
    (0, 0)

/-- Spec-side weighted partial-match value: the weight vector
`(-1, +1, +1, -1)` applied position-wise to the window cells. -/
def specWindowWeight (g : DummyGrid) (i j : Nat) (d : Dir) : Int :=
  windowCell g i j d 0 * -1 + windowCell g i j d 1 * 1 +
    windowCell g i j d 2 * 1 + windowCell g i j d 3 * -1

/-- Spec-side chain score: the sum, over every start cell and every one of
the four directions, of the cube of that window's weighted partial-match
value. -/
def specChainScore (g : DummyGrid) : Int :=
  (((List.range g.num_rows).map fun i =>
    (((List.range g.num_cols).map fun j =>
      (([Dir.right, Dir.down, Dir.downRight, Dir.upRight].map fun d =>
        specWindowWeight g i j d ^ 3).sum)).sum)).sum)

/-- The per-cell contribution to the chain score. -/
def cellContrib (g : DummyGrid) (i j : Nat) : Int :=
  ([Dir.right, Dir.down, Dir.downRight, Dir.upRight].map fun d =>
    specWindowWeight g i j d ^ 3).sum

theorem specWindowWeight_eq (g : DummyGrid) (i j : Nat) (d : Dir) :
    specWindowWeight g i j d = windowWeight g i j d := by
  simp [specWindowWeight, windowWeight, dummyTranslate]

theorem aiCellStep_snd (g : DummyGrid) (i j : Nat) (acc : Int × Int) :
    (aiCellStep g i j acc).2 = acc.2 + cellContrib g i j := by
  simp only [aiCellStep, cellContrib, List.map_cons, List.map_nil, List.sum_cons,
    List.sum_nil, specWindowWeight_eq]
  ring

theorem aiCellWin_values (g : DummyGrid) (i j : Nat) (w : Int)
    (h : aiCellWin g i j = some w) : w = -4 ∨ w = 4 := by
  simp only [aiCellWin, dummyTranslate] at h
  split_ifs at h <;> simp_all

theorem aiCellStep_fst (g : DummyGrid) (i j : Nat) (acc : Int × Int)
    (h : acc.1 = -4 ∨ acc.1 = 0 ∨ acc.1 = 4) :
    (aiCellStep g i j acc).1 = -4 ∨ (aiCellStep g i j acc).1 = 0 ∨
      (aiCellStep g i j acc).1 = 4 := by
  simp only [aiCellStep]
  rcases hw : aiCellWin g i j with _ | w
  · simpa using h
  · rcases aiCellWin_values g i j w hw with h4 | h4 <;> simp [h4]

theorem foldl_inner_snd (g : DummyGrid) (i : Nat) (l : List Nat) :
    ∀ acc : Int × Int,
      (l.foldl (fun a j => aiCellStep g i j a) acc).2 =
        acc.2 + (l.map fun j => cellContrib g i j).sum := by
  induction l with
  | nil => intro acc; simp
  | cons x xs ih =>
    intro acc
    simp only [List.foldl_cons, List.map_cons, List.sum_cons, ih, aiCellStep_snd]
    ring

theorem foldl_outer_snd (g : DummyGrid) (l : List Nat) :
    ∀ acc : Int × Int,
      (l.foldl (fun acc i => (List.range g.num_cols).foldl (fun a j => aiCellStep g i j a) acc)
        acc).2 =
      acc.2 + (l.map fun i => ((List.range g.num_cols).map fun j => cellContrib g i j).sum).sum := by
  induction l with
  | nil => intro acc; simp
  | cons x xs ih =>
    intro acc
    simp only [List.foldl_cons, List.map_cons, List.sum_cons, ih, foldl_inner_snd]
    ring

theorem foldl_inner_fst (g : DummyGrid) (i : Nat) (l : List Nat) :
    ∀ acc : Int × Int, (acc.1 = -4 ∨ acc.1 = 0 ∨ acc.1 = 4) →
      ((l.foldl (fun a j => aiCellStep g i j a) acc).1 = -4 ∨
        (l.foldl (fun a j => aiCellStep g i j a) acc).1 = 0 ∨
        (l.foldl (fun a j => aiCellStep g i j a) acc).1 = 4) := by
  induction l with
  | nil => intro acc h; simpa using h
  | cons x xs ih =>
    intro acc h
    simp only [List.foldl_cons]
    exact ih _ (aiCellStep_fst g i x acc h)

theorem foldl_outer_fst (g : DummyGrid) (l : List Nat) :
    ∀ acc : Int × Int, (acc.1 = -4 ∨ acc.1 = 0 ∨ acc.1 = 4) →
      ((l.foldl (fun acc i => (List.range g.num_cols).foldl (fun a j => aiCellStep g i j a) acc)
          acc).1 = -4 ∨
        (l.foldl (fun acc i => (List.range g.num_cols).foldl (fun a j => aiCellStep g i j a) acc)
          acc).1 = 0 ∨
        (l.foldl (fun acc i => (List.range g.num_cols).foldl (fun a j => aiCellStep g i j a) acc)
          acc).1 = 4) := by
  induction l with
  | nil => intro acc h; simpa using h
  | cons x xs ih =>
    intro acc h
    simp only [List.foldl_cons]
    exact ih _ (foldl_inner_fst g x _ _ h)

/-- C8: The heuristic evaluator's chain score equals the sum, over
every start cell and every one of the four directions (out-of-bounds
window cells contributing 0), of the cube of the window's weighted
partial-match value with weights `(-1, +1, +1, -1)` — the AI-favored
assignment `(O, T, T, O)`; and the accompanying win signal is always one
of `{-4, 0, +4}`. -/
theorem C8_ai_check_state (g : DummyGrid) :
    (ai_check_state g).2 = specChainScore g ∧
      ((ai_check_state g).1 = -4 ∨ (ai_check_state g).1 = 0 ∨ (ai_check_state g).1 = 4) := by
  constructor
  · unfold ai_check_state specChainScore
    rw [foldl_outer_snd]
    simp [cellContrib]
  · exact foldl_outer_fst g _ _ (Or.inr (Or.inl rfl))

/-- Embeds `Game::choose`: pick an element of the candidate list using one random
draw (`gen_range(0, len)`; a length of 0 would panic in Rust and never
occurs at the call sites). -/
def choose (seq : Nat → Nat) (tick : Nat) (l : List Nat) : Nat :=
  l.getD (seq tick % l.length) 0

/-- Embeds `Game::ai_fill_map`: simulate dropping `value` into `column` of a clone
of `state`; `none` when the column's top cell is occupied or the column is
out of range.  `rows`/`cols` are the game grid's dimensions
(`self.grid.num_rows` / `self.grid.num_cols` in the source). -/
def ai_fill_map (rows cols : Nat) (state : DummyGrid) (column : Nat) (value : Int) :
    Option DummyGrid :=
  if state.get 0 column ≠ 0 ∨ cols ≤ column then
    none
  else
    let row :=
      match (List.range (rows - 1)).find? (fun i => decide (state.get (i + 1) column ≠ 0)) with
      | some i => i
      | none => rows - 1
    some (state.set row column value)

mutual

/-- Embeds `Game::ai_value`: terminal/heuristic checks, then the parity dispatch
(two `ai_min_state` calls at even depth, two `ai_max_state` calls at odd
depth, merged by min resp. max with a random coin on ties).  Result is
`(value, move, next draw counter)`. -/
def ai_value (seq : Nat → Nat) (maxd rows cols : Nat) (state : DummyGrid) (depth : Nat)
    (alpha beta amv : Int) (tick : Nat) : Int × Int × Nat :=
  let val := ai_check_state state
  if hd : maxd ≤ depth then
    let win_val := val.1
    let chain_val := val.2 * amv
    let ret1 : Int :=
      if win_val = 4 then 999999 else if win_val = 4 * -1 then 999999 * -1 else chain_val
    (ret1 - ((depth * depth : Nat) : Int), -1, tick)
  else if val.1 = 4 then
    ((999999 : Int) - ((depth * depth : Nat) : Int), -1, tick)
  else if val.1 = 4 * -1 then
    ((999999 : Int) * -1 - ((depth * depth : Nat) : Int), -1, tick)
  else if depth % 2 = 0 then
    let t := ai_min_state seq maxd rows cols state (depth + 1) alpha beta
      (dummyTranslate ChipType.T) tick
    let o := ai_min_state seq maxd rows cols state (depth + 1) alpha beta
      (dummyTranslate ChipType.O) t.2.2
    if t.1 > o.1 then (o.1, o.2.1, o.2.2)
    else if t.1 < o.1 then (t.1, t.2.1, o.2.2)
    else if seq o.2.2 % 2 = 0 then (t.1, t.2.1, o.2.2 + 1)
    else (o.1, o.2.1, o.2.2 + 1)
  else
    let t := ai_max_state seq maxd rows cols state (depth + 1) alpha beta
      (dummyTranslate ChipType.T) tick
    let o := ai_max_state seq maxd rows cols state (depth + 1) alpha beta
      (dummyTranslate ChipType.O) t.2.2
    if t.1 > o.1 then (t.1, t.2.1, o.2.2)
    else if t.1 < o.1 then (o.1, o.2.1, o.2.2)
    else if seq o.2.2 % 2 = 0 then (t.1, t.2.1, o.2.2 + 1)
    else (o.1, o.2.1, o.2.2 + 1)
termination_by (maxd - depth, 1, 0)

/-- The column loop of `Game::ai_max_state` over the remaining columns
`cs`, with running value `v`, candidate `move_queue`, running `alpha` and
draw counter `tick`.  (The loop-local `_move` variable never escapes: the
returned move always comes from `move_queue`, or is `-1`.) -/
def ai_max_aux (seq : Nat → Nat) (maxd rows cols : Nat) (state : DummyGrid) (depth : Nat)
    (beta amv : Int) (cs : List Nat) (v : Int) (queue : List Nat) (alpha : Int) (tick : Nat) :
    Int × Int × Nat :=
  match cs with
  | [] =>
    if queue.length = 0 then (v, -1, tick)
    else (v, (choose seq tick queue : Nat), tick + 1)
  | j :: rest =>
    match ai_fill_map rows cols state j amv with
    | none => ai_max_aux seq maxd rows cols state depth beta amv rest v queue alpha tick
    | some st =>
      let r := ai_value seq maxd rows cols st depth alpha beta amv tick
      let v' := if r.1 > v then r.1 else v
      let queue' := if r.1 > v then [j] else if r.1 = v then queue ++ [j] else queue
      if v' > beta then (v', ((choose seq r.2.2 queue' : Nat) : Int), r.2.2 + 1)
      else ai_max_aux seq maxd rows cols state depth beta amv rest v' queue' (max alpha v') r.2.2
termination_by (maxd - depth, 2, cs.length)

/-- Embeds `Game::ai_max_state`: maximize over all columns, starting from
`v = -100000000007` and an empty candidate queue. -/
def ai_max_state (seq : Nat → Nat) (maxd rows cols : Nat) (state : DummyGrid) (depth : Nat)
    (alpha beta amv : Int) (tick : Nat) : Int × Int × Nat :=
  ai_max_aux seq maxd rows cols state depth beta amv (List.range cols)
    (-100000000007) [] alpha tick
termination_by (maxd - depth, 3, 0)

/-- The column loop of `Game::ai_min_state` (symmetric: fills with
`amv * -1`, prunes when the running value drops below `alpha`, shrinks
`beta`). -/
def ai_min_aux (seq : Nat → Nat) (maxd rows cols : Nat) (state : DummyGrid) (depth : Nat)
    (alpha amv : Int) (cs : List Nat) (v : Int) (queue : List Nat) (beta : Int) (tick : Nat) :
    Int × Int × Nat :=
  match cs with
  | [] =>
    if queue.length = 0 then (v, -1, tick)
    else (v, (choose seq tick queue : Nat), tick + 1)
  | j :: rest =>
    match ai_fill_map rows cols state j (amv * -1) with
    | none => ai_min_aux seq maxd rows cols state depth alpha amv rest v queue beta tick
    | some st =>
      let r := ai_value seq maxd rows cols st depth alpha beta amv tick
      let v' := if r.1 < v then r.1 else v
      let queue' := if r.1 < v then [j] else if r.1 = v then queue ++ [j] else queue
      if v' < alpha then (v', ((choose seq r.2.2 queue' : Nat) : Int), r.2.2 + 1)
      else ai_min_aux seq maxd rows cols state depth alpha amv rest v' queue' (min beta v') r.2.2
termination_by (maxd - depth, 2, cs.length)

/-- Embeds `Game::ai_min_state`: minimize over all columns, starting from
`v = 100000000007` and an empty candidate queue. -/
def ai_min_state (seq : Nat → Nat) (maxd rows cols : Nat) (state : DummyGrid) (depth : Nat)
    (alpha beta amv : Int) (tick : Nat) : Int × Int × Nat :=
  ai_min_aux seq maxd rows cols state depth alpha amv (List.range cols)
    100000000007 [] beta tick
termination_by (maxd - depth, 3, 0)

end

theorem ai_value_of_win_pos (seq : Nat → Nat) (maxd rows cols : Nat) (state : DummyGrid)
    (depth : Nat) (alpha beta amv : Int) (tick : Nat)
    (hw : (ai_check_state state).1 = 4) :
    (ai_value seq maxd rows cols state depth alpha beta amv tick).1 =
      999999 - ((depth * depth : Nat) : Int) := by
  unfold ai_value
  by_cases hd : maxd ≤ depth
  · simp [hd, hw]
  · simp [hd, hw]

theorem ai_value_of_win_neg (seq : Nat → Nat) (maxd rows cols : Nat) (state : DummyGrid)
    (depth : Nat) (alpha beta amv : Int) (tick : Nat)
    (hw : (ai_check_state state).1 = -4) :
    (ai_value seq maxd rows cols state depth alpha beta amv tick).1 =
      -999999 - ((depth * depth : Nat) : Int) := by
  unfold ai_value
  by_cases hd : maxd ≤ depth
  · norm_num [hd, hw]
  · norm_num [hd, hw]

/-- A 4×4 board whose bottom row reads `T O O T`: the evaluator's win
signal is `-4` (human-favored pattern complete). -/
def tootBoard4 : DummyGrid :=
  ((((DummyGrid.new 4 4).set 3 0 1).set 3 1 (-1)).set 3 2 (-1)).set 3 3 1

/-- A 4×4 board whose bottom row reads `O T T O`: the evaluator's win
signal is `+4` (AI-favored pattern complete). -/
def ottoBoard4 : DummyGrid :=
  ((((DummyGrid.new 4 4).set 3 0 (-1)).set 3 1 1).set 3 2 1).set 3 3 (-1)

/-- C4 counterexample: At win signal `-4` and search depth 1 the code
returns `-999999 - 1² = -1000000`, not `-(999999 - 1²) = -999998` as the
claim states. -/
theorem C4_counterexample_ai_value_loss_score :
    (ai_value (fun _ => 0) 3 4 4 tootBoard4 1 (-100000000007) 100000000007 1 0).1 =
      -1000000 ∧
    ¬ (ai_value (fun _ => 0) 3 4 4 tootBoard4 1 (-100000000007) 100000000007 1 0).1 =
      -(999999 - ((1 * 1 : Nat) : Int)) := by
  have hwin : (ai_check_state tootBoard4).1 = -4 := by decide
  have h := ai_value_of_win_neg (fun _ => 0) 3 4 4 tootBoard4 1
    (-100000000007) 100000000007 1 0 hwin
  rw [h]
  norm_num

/-- C4 amended: For every board state evaluated at depth `d`: if the
evaluator's win signal is `+4`, `ai_value` scores it `+(999999 - d²)`; if
the win signal is `-4`, it scores it `-(999999 + d²)` (that is,
`-999999 - d²`) — the depth-squared penalty is subtracted in both cases,
so only wins (not losses) are preferred shallower by this formula. -/
theorem C4_amended_ai_value_win_scores (seq : Nat → Nat) (maxd rows cols : Nat)
    (state : DummyGrid) (depth : Nat) (alpha beta amv : Int) (tick : Nat) :
    ((ai_check_state state).1 = 4 →
      (ai_value seq maxd rows cols state depth alpha beta amv tick).1 =
        999999 - ((depth * depth : Nat) : Int)) ∧
    ((ai_check_state state).1 = -4 →
      (ai_value seq maxd rows cols state depth alpha beta amv tick).1 =
        -999999 - ((depth * depth : Nat) : Int)) :=
  ⟨ai_value_of_win_pos seq maxd rows cols state depth alpha beta amv tick,
    ai_value_of_win_neg seq maxd rows cols state depth alpha beta amv tick⟩

/-- Closed witness for the amended C4, at win signal `+4` (depth 2) and at
win signal `-4` (depth 1). -/
theorem C4_amended_ai_value_win_scores_witness :
    (ai_value (fun _ => 0) 3 4 4 ottoBoard4 2 (-100000000007) 100000000007 1 0).1 =
      999999 - ((2 * 2 : Nat) : Int) ∧
    (ai_value (fun _ => 0) 3 4 4 tootBoard4 1 (-100000000007) 100000000007 1 0).1 =
      -999999 - ((1 * 1 : Nat) : Int) :=
  ⟨(C4_amended_ai_value_win_scores (fun _ => 0) 3 4 4 ottoBoard4 2
      (-100000000007) 100000000007 1 0).1 (by decide),
    (C4_amended_ai_value_win_scores (fun _ => 0) 3 4 4 tootBoard4 1
      (-100000000007) 100000000007 1 0).2 (by decide)⟩

mutual

/-- Modelled from the spec's words for the pruning-equivalence property:
the same search with pruning disabled (`alpha = -∞`, `beta = +∞`, full
exploration), collapsed to the score component — the random tie-break only
selects between equal-valued options, so the merged score is the plain
min/max of the pair. -/
def fullValue (maxd rows cols : Nat) (state : DummyGrid) (depth : Nat) (amv : Int) : Int :=
  let val := ai_check_state state
  if hd : maxd ≤ depth then
    let ret1 : Int :=
      if val.1 = 4 then 999999 else if val.1 = 4 * -1 then 999999 * -1 else val.2 * amv
    ret1 - ((depth * depth : Nat) : Int)
  else if val.1 = 4 then
    (999999 : Int) - ((depth * depth : Nat) : Int)
  else if val.1 = 4 * -1 then
    (999999 : Int) * -1 - ((depth * depth : Nat) : Int)
  else if depth % 2 = 0 then
    min (fullMinState maxd rows cols state (depth + 1) (dummyTranslate ChipType.T))
      (fullMinState maxd rows cols state (depth + 1) (dummyTranslate ChipType.O))
  else
    max (fullMaxState maxd rows cols state (depth + 1) (dummyTranslate ChipType.T))
      (fullMaxState maxd rows cols state (depth + 1) (dummyTranslate ChipType.O))
termination_by (maxd - depth, 1, 0)

/-- Unpruned column loop of the maximizing player. -/
def fullMaxAux (maxd rows cols : Nat) (state : DummyGrid) (depth : Nat) (amv : Int)
    (cs : List Nat) (v : Int) : Int :=
  match cs with
  | [] => v
  | j :: rest =>
    match ai_fill_map rows cols state j amv with
    | none => fullMaxAux maxd rows cols state depth amv rest v
    | some st =>
      let w := fullValue maxd rows cols st depth amv
      fullMaxAux maxd rows cols state depth amv rest (max v w)
termination_by (maxd - depth, 2, cs.length)

/-- Unpruned `ai_max_state` (score only). -/
def fullMaxState (maxd rows cols : Nat) (state : DummyGrid) (depth : Nat) (amv : Int) : Int :=
  fullMaxAux maxd rows cols state depth amv (List.range cols) (-100000000007)
termination_by (maxd - depth, 3, 0)

/-- Unpruned column loop of the minimizing player. -/
def fullMinAux (maxd rows cols : Nat) (state : DummyGrid) (depth : Nat) (amv : Int)
    (cs : List Nat) (v : Int) : Int :=
  match cs with
  | [] => v
  | j :: rest =>
    match ai_fill_map rows cols state j (amv * -1) with
    | none => fullMinAux maxd rows cols state depth amv rest v
    | some st =>
      let w := fullValue maxd rows cols st depth amv
      fullMinAux maxd rows cols state depth amv rest (min v w)
termination_by (maxd - depth, 2, cs.length)

/-- Unpruned `ai_min_state` (score only). -/
def fullMinState (maxd rows cols : Nat) (state : DummyGrid) (depth : Nat) (amv : Int) : Int :=
  fullMinAux maxd rows cols state depth amv (List.range cols) 100000000007
termination_by (maxd - depth, 3, 0)

end

/-- Every backing cell of a reachable board holds `-1`, `0`, or `1`
(`DummyGrid` only ever stores chip values and zeros). -/
def DummyGrid.smallVals (g : DummyGrid) : Prop :=
  ∀ x ∈ g.items, x = -1 ∨ x = 0 ∨ x = 1

instance (g : DummyGrid) : Decidable g.smallVals := by
  unfold DummyGrid.smallVals; infer_instance

theorem getD_zero_small (l : List Int) (h : ∀ x ∈ l, x = -1 ∨ x = 0 ∨ x = 1) :
    ∀ n, l.getD n 0 = -1 ∨ l.getD n 0 = 0 ∨ l.getD n 0 = 1 := by
  induction l with
  | nil => intro n; simp [List.getD]
  | cons a t ih =>
    intro n
    cases n with
    | zero => simpa using h a (by simp)
    | succ m =>
      simpa using ih (fun x hx => h x (by simp [hx])) m

theorem DummyGrid.get_small (g : DummyGrid) (h : g.smallVals) (r c : Nat) :
    g.get r c = -1 ∨ g.get r c = 0 ∨ g.get r c = 1 :=
  getD_zero_small g.items h _

theorem windowCell_small (g : DummyGrid) (h : g.smallVals) (i j : Nat) (d : Dir) (k : Nat) :
    windowCell g i j d k = -1 ∨ windowCell g i j d k = 0 ∨ windowCell g i j d k = 1 := by
  cases d <;> simp only [windowCell, tempR, tempB, tempBR, tempTR] <;> split <;>
    first
      | exact g.get_small h _ _
      | simp

theorem windowWeight_bounds (g : DummyGrid) (h : g.smallVals) (i j : Nat) (d : Dir) :
    -4 ≤ windowWeight g i j d ∧ windowWeight g i j d ≤ 4 := by
  have hb : ∀ k : Nat, -1 ≤ windowCell g i j d k ∧ windowCell g i j d k ≤ 1 := by
    intro k
    rcases windowCell_small g h i j d k with h1 | h1 | h1 <;> simp [h1]
  obtain ⟨h0l, h0r⟩ := hb 0
  obtain ⟨h1l, h1r⟩ := hb 1
  obtain ⟨h2l, h2r⟩ := hb 2
  obtain ⟨h3l, h3r⟩ := hb 3
  unfold windowWeight
  simp only [dummyTranslate]
  constructor <;> nlinarith

theorem cube_bounds (w : Int) (h1 : -4 ≤ w) (h2 : w ≤ 4) : -64 ≤ w ^ 3 ∧ w ^ 3 ≤ 64 := by
  constructor <;> nlinarith [sq_nonneg (w + 4), sq_nonneg (w - 4), sq_nonneg w]

theorem cellContrib_bounds (g : DummyGrid) (h : g.smallVals) (i j : Nat) :
    -256 ≤ cellContrib g i j ∧ cellContrib g i j ≤ 256 := by
  have hd : ∀ d : Dir, -64 ≤ specWindowWeight g i j d ^ 3 ∧ specWindowWeight g i j d ^ 3 ≤ 64 := by
    intro d
    rw [specWindowWeight_eq]
    obtain ⟨hl, hr⟩ := windowWeight_bounds g h i j d
    exact cube_bounds _ hl hr
  obtain ⟨h1l, h1r⟩ := hd Dir.right
  obtain ⟨h2l, h2r⟩ := hd Dir.down
  obtain ⟨h3l, h3r⟩ := hd Dir.downRight
  obtain ⟨h4l, h4r⟩ := hd Dir.upRight
  simp only [cellContrib, List.map_cons, List.map_nil, List.sum_cons, List.sum_nil, add_zero]
  constructor <;> linarith

theorem list_sum_bounds (f : Nat → Int) (B : Int) (l : List Nat)
    (h : ∀ x ∈ l, -B ≤ f x ∧ f x ≤ B) :
    -((l.length : Int) * B) ≤ (l.map f).sum ∧ (l.map f).sum ≤ (l.length : Int) * B := by
  induction l with
  | nil => simp
  | cons a t ih =>
    obtain ⟨h1, h2⟩ := h a (by simp)
    obtain ⟨h3, h4⟩ := ih (fun x hx => h x (by simp [hx]))
    simp only [List.map_cons, List.sum_cons, List.length_cons]
    constructor
    · push_cast
      linarith
    · push_cast
      linarith

theorem ai_check_state_snd_eq (g : DummyGrid) :
    (ai_check_state g).2 =
      ((List.range g.num_rows).map fun i =>
        ((List.range g.num_cols).map fun j => cellContrib g i j).sum).sum := by
  unfold ai_check_state
  rw [foldl_outer_snd]
  simp

theorem ai_check_state_snd_bounds (g : DummyGrid) (h : g.smallVals) :
    -(((g.num_rows * g.num_cols : Nat) : Int) * 256) ≤ (ai_check_state g).2 ∧
      (ai_check_state g).2 ≤ ((g.num_rows * g.num_cols : Nat) : Int) * 256 := by
  rw [ai_check_state_snd_eq]
  have inner : ∀ i ∈ List.range g.num_rows,
      -((g.num_cols : Int) * 256) ≤ ((List.range g.num_cols).map fun j => cellContrib g i j).sum ∧
        ((List.range g.num_cols).map fun j => cellContrib g i j).sum ≤ (g.num_cols : Int) * 256 := by
    intro i _
    have := list_sum_bounds (fun j => cellContrib g i j) 256 (List.range g.num_cols)
      (fun x _ => cellContrib_bounds g h i x)
    simpa using this
  have outer := list_sum_bounds
    (fun i => ((List.range g.num_cols).map fun j => cellContrib g i j).sum)
    ((g.num_cols : Int) * 256) (List.range g.num_rows) inner
  simp only [List.length_range] at outer
  constructor
  · calc -(((g.num_rows * g.num_cols : Nat) : Int) * 256)
        = -((g.num_rows : Int) * ((g.num_cols : Int) * 256)) := by push_cast; ring
      _ ≤ _ := outer.1
  · calc ((List.range g.num_rows).map fun i =>
          ((List.range g.num_cols).map fun j => cellContrib g i j).sum).sum
        ≤ (g.num_rows : Int) * ((g.num_cols : Int) * 256) := outer.2
      _ = ((g.num_rows * g.num_cols : Nat) : Int) * 256 := by push_cast; ring

theorem ai_check_state_fst_small (g : DummyGrid) :
    (ai_check_state g).1 = -4 ∨ (ai_check_state g).1 = 0 ∨ (ai_check_state g).1 = 4 :=
  foldl_outer_fst g _ _ (Or.inr (Or.inl rfl))

theorem ai_fill_map_some_eq (rows cols : Nat) (state : DummyGrid) (j : Nat) (w : Int)
    (st : DummyGrid) (h : ai_fill_map rows cols state j w = some st) :
    ∃ row, st = state.set row j w := by
  unfold ai_fill_map at h
  split_ifs at h
  exact ⟨_, (Option.some.inj h).symm⟩

theorem DummyGrid.smallVals_set (g : DummyGrid) (h : g.smallVals) (r c : Nat) (w : Int)
    (hw : w = -1 ∨ w = 0 ∨ w = 1) : (g.set r c w).smallVals := by
  intro x hx
  rcases List.mem_or_eq_of_mem_set hx with hx' | rfl
  · exact h x hx'
  · exact hw

theorem ai_fill_map_preserves (rows cols : Nat) (state : DummyGrid) (j : Nat) (w : Int)
    (st : DummyGrid) (h : ai_fill_map rows cols state j w = some st)
    (hsv : state.smallVals) (hw : w = -1 ∨ w = 0 ∨ w = 1) :
    st.smallVals ∧ st.num_rows = state.num_rows ∧ st.num_cols = state.num_cols := by
  obtain ⟨row, rfl⟩ := ai_fill_map_some_eq rows cols state j w st h
  exact ⟨state.smallVals_set hsv row j w hw, rfl, rfl⟩

theorem depth_sq_bounds (maxd depth : Nat) (hmaxd : maxd ≤ 1000) (hdep : depth ≤ maxd) :
    (0 : Int) ≤ ((depth * depth : Nat) : Int) ∧ ((depth * depth : Nat) : Int) ≤ 1000000 := by
  constructor
  · exact Int.ofNat_nonneg _
  · have h1 : depth ≤ 1000 := hdep.trans hmaxd
    have h2 : depth * depth ≤ 1000 * 1000 := Nat.mul_le_mul h1 h1
    exact_mod_cast h2

theorem chain_amv_bounds (state : DummyGrid) (amv : Int) (hsv : state.smallVals)
    (hdim : state.num_rows * state.num_cols ≤ 80) (hamv : amv = 1 ∨ amv = -1) :
    -20480 ≤ (ai_check_state state).2 * amv ∧ (ai_check_state state).2 * amv ≤ 20480 := by
  obtain ⟨hc1, hc2⟩ := ai_check_state_snd_bounds state hsv
  have hcast : ((state.num_rows * state.num_cols : Nat) : Int) ≤ 80 := by exact_mod_cast hdim
  have hcast0 : (0 : Int) ≤ ((state.num_rows * state.num_cols : Nat) : Int) :=
    Int.ofNat_nonneg _
  have hb1 : -20480 ≤ (ai_check_state state).2 := by nlinarith
  have hb2 : (ai_check_state state).2 ≤ 20480 := by nlinarith
  rcases hamv with rfl | rfl
  · constructor <;> nlinarith
  · constructor <;> nlinarith

theorem ai_value_leaf_bounds (seq : Nat → Nat) (maxd rows cols : Nat) (state : DummyGrid)
    (depth : Nat) (alpha beta amv : Int) (tick : Nat) (hd : maxd ≤ depth)
    (hsv : state.smallVals) (hdim : state.num_rows * state.num_cols ≤ 80)
    (hmaxd : maxd ≤ 1000) (hdep : depth ≤ maxd) (hamv : amv = 1 ∨ amv = -1) :
    -100000000007 ≤ (ai_value seq maxd rows cols state depth alpha beta amv tick).1 ∧
      (ai_value seq maxd rows cols state depth alpha beta amv tick).1 ≤ 100000000007 := by
  obtain ⟨hd1, hd2⟩ := depth_sq_bounds maxd depth hmaxd hdep
  obtain ⟨hc1, hc2⟩ := chain_amv_bounds state amv hsv hdim hamv
  rw [ai_value]
  rw [dif_pos hd]
  dsimp only
  split_ifs <;> constructor <;> linarith

/-- Bounds for the pruned max loop, given bounds for the child calls. -/
theorem ai_max_aux_bounds (seq : Nat → Nat) (maxd rows cols : Nat) (state : DummyGrid)
    (depth : Nat) (beta amv : Int)
    (hchild : ∀ j st alpha' beta' t, ai_fill_map rows cols state j amv = some st →
      -100000000007 ≤ (ai_value seq maxd rows cols st depth alpha' beta' amv t).1 ∧
        (ai_value seq maxd rows cols st depth alpha' beta' amv t).1 ≤ 100000000007) :
    ∀ (cs : List Nat) (v : Int) (queue : List Nat) (alpha : Int) (tick : Nat),
      -100000000007 ≤ v → v ≤ 100000000007 →
      -100000000007 ≤
        (ai_max_aux seq maxd rows cols state depth beta amv cs v queue alpha tick).1 ∧
        (ai_max_aux seq maxd rows cols state depth beta amv cs v queue alpha tick).1 ≤
          100000000007 := by
  intro cs
  induction cs with
  | nil =>
    intro v queue alpha tick hv1 hv2
    unfold ai_max_aux
    split <;> exact ⟨hv1, hv2⟩
  | cons j rest ih =>
    intro v queue alpha tick hv1 hv2
    rw [ai_max_aux]
    rcases hf : ai_fill_map rows cols state j amv with _ | st
    · exact ih v queue alpha tick hv1 hv2
    · obtain ⟨hr1, hr2⟩ := hchild j st alpha beta tick hf
      dsimp only
      by_cases hgt : (ai_value seq maxd rows cols st depth alpha beta amv tick).1 > v
      · simp only [if_pos hgt]
        split
        · exact ⟨hr1, hr2⟩
        · exact ih _ _ _ _ hr1 hr2
      · simp only [if_neg hgt]
        split
        · exact ⟨hv1, hv2⟩
        · exact ih _ _ _ _ hv1 hv2

/-- Bounds for the pruned min loop, given bounds for the child calls. -/
theorem ai_min_aux_bounds (seq : Nat → Nat) (maxd rows cols : Nat) (state : DummyGrid)
    (depth : Nat) (alpha amv : Int)
    (hchild : ∀ j st alpha' beta' t, ai_fill_map rows cols state j (amv * -1) = some st →
      -100000000007 ≤ (ai_value seq maxd rows cols st depth alpha' beta' amv t).1 ∧
        (ai_value seq maxd rows cols st depth alpha' beta' amv t).1 ≤ 100000000007) :
    ∀ (cs : List Nat) (v : Int) (queue : List Nat) (beta : Int) (tick : Nat),
      -100000000007 ≤ v → v ≤ 100000000007 →
      -100000000007 ≤
        (ai_min_aux seq maxd rows cols state depth alpha amv cs v queue beta tick).1 ∧
        (ai_min_aux seq maxd rows cols state depth alpha amv cs v queue beta tick).1 ≤
          100000000007 := by
  intro cs
  induction cs with
  | nil =>
    intro v queue beta tick hv1 hv2
    unfold ai_min_aux
    split <;> exact ⟨hv1, hv2⟩
  | cons j rest ih =>
    intro v queue beta tick hv1 hv2
    rw [ai_min_aux]
    rcases hf : ai_fill_map rows cols state j (amv * -1) with _ | st
    · exact ih v queue beta tick hv1 hv2
    · obtain ⟨hr1, hr2⟩ := hchild j st alpha beta tick hf
      dsimp only
      by_cases hlt : (ai_value seq maxd rows cols st depth alpha beta amv tick).1 < v
      · simp only [if_pos hlt]
        split
        · exact ⟨hr1, hr2⟩
        · exact ih _ _ _ _ hr1 hr2
      · simp only [if_neg hlt]
        split
        · exact ⟨hv1, hv2⟩
        · exact ih _ _ _ _ hv1 hv2

/-- Bounds for the unpruned max loop. -/
theorem fullMaxAux_bounds (maxd rows cols : Nat) (state : DummyGrid) (depth : Nat) (amv : Int)
    (hchild : ∀ j st, ai_fill_map rows cols state j amv = some st →
      -100000000007 ≤ fullValue maxd rows cols st depth amv ∧
        fullValue maxd rows cols st depth amv ≤ 100000000007) :
    ∀ (cs : List Nat) (v : Int), -100000000007 ≤ v → v ≤ 100000000007 →
      -100000000007 ≤ fullMaxAux maxd rows cols state depth amv cs v ∧
        fullMaxAux maxd rows cols state depth amv cs v ≤ 100000000007 := by
  intro cs
  induction cs with
  | nil =>
    intro v hv1 hv2
    unfold fullMaxAux
    exact ⟨hv1, hv2⟩
  | cons j rest ih =>
    intro v hv1 hv2
    rw [fullMaxAux]
    rcases hf : ai_fill_map rows cols state j amv with _ | st
    · exact ih v hv1 hv2
    · obtain ⟨hr1, hr2⟩ := hchild j st hf
      dsimp only
      exact ih _ (le_max_of_le_left hv1) (max_le hv2 hr2)

/-- Bounds for the unpruned min loop. -/
theorem fullMinAux_bounds (maxd rows cols : Nat) (state : DummyGrid) (depth : Nat) (amv : Int)
    (hchild : ∀ j st, ai_fill_map rows cols state j (amv * -1) = some st →
      -100000000007 ≤ fullValue maxd rows cols st depth amv ∧
        fullValue maxd rows cols st depth amv ≤ 100000000007) :
    ∀ (cs : List Nat) (v : Int), -100000000007 ≤ v → v ≤ 100000000007 →
      -100000000007 ≤ fullMinAux maxd rows cols state depth amv cs v ∧
        fullMinAux maxd rows cols state depth amv cs v ≤ 100000000007 := by
  intro cs
  induction cs with
  | nil =>
    intro v hv1 hv2
    unfold fullMinAux
    exact ⟨hv1, hv2⟩
  | cons j rest ih =>
    intro v hv1 hv2
    rw [fullMinAux]
    rcases hf : ai_fill_map rows cols state j (amv * -1) with _ | st
    · exact ih v hv1 hv2
    · obtain ⟨hr1, hr2⟩ := hchild j st hf
      dsimp only
      exact ih _ (le_min hv1 hr1) (min_le_of_left_le hv2)

theorem fullValue_leaf_bounds (maxd rows cols : Nat) (state : DummyGrid) (depth : Nat)
    (amv : Int) (hd : maxd ≤ depth) (hsv : state.smallVals)
    (hdim : state.num_rows * state.num_cols ≤ 80) (hmaxd : maxd ≤ 1000) (hdep : depth ≤ maxd)
    (hamv : amv = 1 ∨ amv = -1) :
    -100000000007 ≤ fullValue maxd rows cols state depth amv ∧
      fullValue maxd rows cols state depth amv ≤ 100000000007 := by
  obtain ⟨hd1, hd2⟩ := depth_sq_bounds maxd depth hmaxd hdep
  obtain ⟨hc1, hc2⟩ := chain_amv_bounds state amv hsv hdim hamv
  rw [fullValue]
  rw [dif_pos hd]
  dsimp only
  split_ifs <;> constructor <;> linarith

/-- Both searches stay within the `±100000000007` sentinels on boards with
chip-valued cells and at most 80 logical cells. -/
theorem value_bounds (maxd rows cols : Nat) (hmaxd : maxd ≤ 1000) :
    ∀ (n : Nat) (seq : Nat → Nat) (state : DummyGrid) (depth : Nat)
      (alpha beta amv : Int) (tick : Nat),
      maxd - depth ≤ n → depth ≤ maxd → state.smallVals →
      state.num_rows * state.num_cols ≤ 80 → (amv = 1 ∨ amv = -1) →
      ((-100000000007 ≤ (ai_value seq maxd rows cols state depth alpha beta amv tick).1 ∧
          (ai_value seq maxd rows cols state depth alpha beta amv tick).1 ≤ 100000000007) ∧
        (-100000000007 ≤ fullValue maxd rows cols state depth amv ∧
          fullValue maxd rows cols state depth amv ≤ 100000000007)) := by
  intro n
  induction n with
  | zero =>
    intro seq state depth alpha beta amv tick hn hdep hsv hdim hamv
    have hd : maxd ≤ depth := by omega
    exact ⟨ai_value_leaf_bounds seq maxd rows cols state depth alpha beta amv tick hd hsv hdim
        hmaxd hdep hamv,
      fullValue_leaf_bounds maxd rows cols state depth amv hd hsv hdim hmaxd hdep hamv⟩
  | succ n ih =>
    intro seq state depth alpha beta amv tick hn hdep hsv hdim hamv
    by_cases hd : maxd ≤ depth
    · exact ⟨ai_value_leaf_bounds seq maxd rows cols state depth alpha beta amv tick hd hsv hdim
          hmaxd hdep hamv,
        fullValue_leaf_bounds maxd rows cols state depth amv hd hsv hdim hmaxd hdep hamv⟩
    · obtain ⟨hq1, hq2⟩ := depth_sq_bounds maxd depth hmaxd hdep
      have hdep1 : depth + 1 ≤ maxd := by omega
      have hn1 : maxd - (depth + 1) ≤ n := by omega
      have hchildT : ∀ (j : Nat) (st : DummyGrid) (alpha' beta' : Int) (t : Nat),
          ai_fill_map rows cols state j (dummyTranslate ChipType.T * -1) = some st →
          -100000000007 ≤
            (ai_value seq maxd rows cols st (depth + 1) alpha' beta'
              (dummyTranslate ChipType.T) t).1 ∧
            (ai_value seq maxd rows cols st (depth + 1) alpha' beta'
              (dummyTranslate ChipType.T) t).1 ≤ 100000000007 := by
        intro j st alpha' beta' t hf
        obtain ⟨hsv', hr', hc'⟩ := ai_fill_map_preserves rows cols state j _ st hf hsv
          (by norm_num [dummyTranslate])
        exact (ih seq st (depth + 1) alpha' beta' (dummyTranslate ChipType.T) t hn1 hdep1 hsv'
          (by rw [hr', hc']; exact hdim) (Or.inl rfl)).1
      have hchildO : ∀ (j : Nat) (st : DummyGrid) (alpha' beta' : Int) (t : Nat),
          ai_fill_map rows cols state j (dummyTranslate ChipType.O * -1) = some st →
          -100000000007 ≤
            (ai_value seq maxd rows cols st (depth + 1) alpha' beta'
              (dummyTranslate ChipType.O) t).1 ∧
            (ai_value seq maxd rows cols st (depth + 1) alpha' beta'
              (dummyTranslate ChipType.O) t).1 ≤ 100000000007 := by
        intro j st alpha' beta' t hf
        obtain ⟨hsv', hr', hc'⟩ := ai_fill_map_preserves rows cols state j _ st hf hsv
          (by norm_num [dummyTranslate])
        exact (ih seq st (depth + 1) alpha' beta' (dummyTranslate ChipType.O) t hn1 hdep1 hsv'
          (by rw [hr', hc']; exact hdim) (Or.inr rfl)).1
      have hchildTd : ∀ (j : Nat) (st : DummyGrid) (alpha' beta' : Int) (t : Nat),
          ai_fill_map rows cols state j (dummyTranslate ChipType.T) = some st →
          -100000000007 ≤
            (ai_value seq maxd rows cols st (depth + 1) alpha' beta'
              (dummyTranslate ChipType.T) t).1 ∧
            (ai_value seq maxd rows cols st (depth + 1) alpha' beta'
              (dummyTranslate ChipType.T) t).1 ≤ 100000000007 := by
        intro j st alpha' beta' t hf
        obtain ⟨hsv', hr', hc'⟩ := ai_fill_map_preserves rows cols state j _ st hf hsv
          (by norm_num [dummyTranslate])
        exact (ih seq st (depth + 1) alpha' beta' (dummyTranslate ChipType.T) t hn1 hdep1 hsv'
          (by rw [hr', hc']; exact hdim) (Or.inl rfl)).1
      have hchildOd : ∀ (j : Nat) (st : DummyGrid) (alpha' beta' : Int) (t : Nat),
          ai_fill_map rows cols state j (dummyTranslate ChipType.O) = some st →
          -100000000007 ≤
            (ai_value seq maxd rows cols st (depth + 1) alpha' beta'
              (dummyTranslate ChipType.O) t).1 ∧
            (ai_value seq maxd rows cols st (depth + 1) alpha' beta'
              (dummyTranslate ChipType.O) t).1 ≤ 100000000007 := by
        intro j st alpha' beta' t hf
        obtain ⟨hsv', hr', hc'⟩ := ai_fill_map_preserves rows cols state j _ st hf hsv
          (by norm_num [dummyTranslate])
        exact (ih seq st (depth + 1) alpha' beta' (dummyTranslate ChipType.O) t hn1 hdep1 hsv'
          (by rw [hr', hc']; exact hdim) (Or.inr rfl)).1
      have hfullT : ∀ (j : Nat) (st : DummyGrid),
          ai_fill_map rows cols state j (dummyTranslate ChipType.T * -1) = some st →
          -100000000007 ≤ fullValue maxd rows cols st (depth + 1) (dummyTranslate ChipType.T) ∧
            fullValue maxd rows cols st (depth + 1) (dummyTranslate ChipType.T) ≤
              100000000007 := by
        intro j st hf
        obtain ⟨hsv', hr', hc'⟩ := ai_fill_map_preserves rows cols state j _ st hf hsv
          (by norm_num [dummyTranslate])
        exact (ih seq st (depth + 1) 0 0 (dummyTranslate ChipType.T) 0 hn1 hdep1 hsv'
          (by rw [hr', hc']; exact hdim) (Or.inl rfl)).2
      have hfullO : ∀ (j : Nat) (st : DummyGrid),
          ai_fill_map rows cols state j (dummyTranslate ChipType.O * -1) = some st →
          -100000000007 ≤ fullValue maxd rows cols st (depth + 1) (dummyTranslate ChipType.O) ∧
            fullValue maxd rows cols st (depth + 1) (dummyTranslate ChipType.O) ≤
              100000000007 := by
        intro j st hf
        obtain ⟨hsv', hr', hc'⟩ := ai_fill_map_preserves rows cols state j _ st hf hsv
          (by norm_num [dummyTranslate])
        exact (ih seq st (depth + 1) 0 0 (dummyTranslate ChipType.O) 0 hn1 hdep1 hsv'
          (by rw [hr', hc']; exact hdim) (Or.inr rfl)).2
      have hfullTd : ∀ (j : Nat) (st : DummyGrid),
          ai_fill_map rows cols state j (dummyTranslate ChipType.T) = some st →
          -100000000007 ≤ fullValue maxd rows cols st (depth + 1) (dummyTranslate ChipType.T) ∧
            fullValue maxd rows cols st (depth + 1) (dummyTranslate ChipType.T) ≤
              100000000007 := by
        intro j st hf
        obtain ⟨hsv', hr', hc'⟩ := ai_fill_map_preserves rows cols state j _ st hf hsv
          (by norm_num [dummyTranslate])
        exact (ih seq st (depth + 1) 0 0 (dummyTranslate ChipType.T) 0 hn1 hdep1 hsv'
          (by rw [hr', hc']; exact hdim) (Or.inl rfl)).2
      have hfullOd : ∀ (j : Nat) (st : DummyGrid),
          ai_fill_map rows cols state j (dummyTranslate ChipType.O) = some st →
          -100000000007 ≤ fullValue maxd rows cols st (depth + 1) (dummyTranslate ChipType.O) ∧
            fullValue maxd rows cols st (depth + 1) (dummyTranslate ChipType.O) ≤
              100000000007 := by
        intro j st hf
        obtain ⟨hsv', hr', hc'⟩ := ai_fill_map_preserves rows cols state j _ st hf hsv
          (by norm_num [dummyTranslate])
        exact (ih seq st (depth + 1) 0 0 (dummyTranslate ChipType.O) 0 hn1 hdep1 hsv'
          (by rw [hr', hc']; exact hdim) (Or.inr rfl)).2
      constructor
      · rw [ai_value]
        rw [dif_neg hd]
        by_cases h4 : (ai_check_state state).1 = 4
        · simp only [if_pos h4]
          constructor <;> dsimp only <;> linarith
        · simp only [if_neg h4]
          by_cases hm4 : (ai_check_state state).1 = 4 * -1
          · simp only [if_pos hm4]
            constructor <;> dsimp only <;> linarith
          · simp only [if_neg hm4]
            by_cases hpar : depth % 2 = 0
            · simp only [if_pos hpar]
              have ht : -100000000007 ≤ (ai_min_state seq maxd rows cols state (depth + 1)
                    alpha beta (dummyTranslate ChipType.T) tick).1 ∧
                  (ai_min_state seq maxd rows cols state (depth + 1) alpha beta
                    (dummyTranslate ChipType.T) tick).1 ≤ 100000000007 := by
                rw [ai_min_state]
                exact ai_min_aux_bounds seq maxd rows cols state (depth + 1) alpha
                  (dummyTranslate ChipType.T) hchildT (List.range cols) 100000000007 [] beta
                  tick (by norm_num) (by norm_num)
              have ho : ∀ tk : Nat, -100000000007 ≤ (ai_min_state seq maxd rows cols state
                    (depth + 1) alpha beta (dummyTranslate ChipType.O) tk).1 ∧
                  (ai_min_state seq maxd rows cols state (depth + 1) alpha beta
                    (dummyTranslate ChipType.O) tk).1 ≤ 100000000007 := by
                intro tk
                rw [ai_min_state]
                exact ai_min_aux_bounds seq maxd rows cols state (depth + 1) alpha
                  (dummyTranslate ChipType.O) hchildO (List.range cols) 100000000007 [] beta
                  tk (by norm_num) (by norm_num)
              obtain ⟨ht1, ht2⟩ := ht
              obtain ⟨ho1, ho2⟩ := ho ((ai_min_state seq maxd rows cols state (depth + 1)
                alpha beta (dummyTranslate ChipType.T) tick).2.2)
              split_ifs <;> exact ⟨by dsimp only; linarith, by dsimp only; linarith⟩
            · simp only [if_neg hpar]
              have ht : -100000000007 ≤ (ai_max_state seq maxd rows cols state (depth + 1)
                    alpha beta (dummyTranslate ChipType.T) tick).1 ∧
                  (ai_max_state seq maxd rows cols state (depth + 1) alpha beta
                    (dummyTranslate ChipType.T) tick).1 ≤ 100000000007 := by
                rw [ai_max_state]
                exact ai_max_aux_bounds seq maxd rows cols state (depth + 1) beta
                  (dummyTranslate ChipType.T) hchildTd (List.range cols) (-100000000007) []
                  alpha tick (by norm_num) (by norm_num)
              have ho : ∀ tk : Nat, -100000000007 ≤ (ai_max_state seq maxd rows cols state
                    (depth + 1) alpha beta (dummyTranslate ChipType.O) tk).1 ∧
                  (ai_max_state seq maxd rows cols state (depth + 1) alpha beta
                    (dummyTranslate ChipType.O) tk).1 ≤ 100000000007 := by
                intro tk
                rw [ai_max_state]
                exact ai_max_aux_bounds seq maxd rows cols state (depth + 1) beta
                  (dummyTranslate ChipType.O) hchildOd (List.range cols) (-100000000007) []
                  alpha tk (by norm_num) (by norm_num)
              obtain ⟨ht1, ht2⟩ := ht
              obtain ⟨ho1, ho2⟩ := ho ((ai_max_state seq maxd rows cols state (depth + 1)
                alpha beta (dummyTranslate ChipType.T) tick).2.2)
              split_ifs <;> exact ⟨by dsimp only; linarith, by dsimp only; linarith⟩
      · rw [fullValue]
        rw [dif_neg hd]
        by_cases h4 : (ai_check_state state).1 = 4
        · simp only [if_pos h4]
          constructor <;> linarith
        · simp only [if_neg h4]
          by_cases hm4 : (ai_check_state state).1 = 4 * -1
          · simp only [if_pos hm4]
            constructor <;> linarith
          · simp only [if_neg hm4]
            by_cases hpar : depth % 2 = 0
            · simp only [if_pos hpar]
              have h1 : -100000000007 ≤ fullMinState maxd rows cols state (depth + 1)
                    (dummyTranslate ChipType.T) ∧
                  fullMinState maxd rows cols state (depth + 1) (dummyTranslate ChipType.T) ≤
                    100000000007 := by
                rw [fullMinState]
                exact fullMinAux_bounds maxd rows cols state (depth + 1)
                  (dummyTranslate ChipType.T) hfullT (List.range cols) 100000000007
                  (by norm_num) (by norm_num)
              have h2 : -100000000007 ≤ fullMinState maxd rows cols state (depth + 1)
                    (dummyTranslate ChipType.O) ∧
                  fullMinState maxd rows cols state (depth + 1) (dummyTranslate ChipType.O) ≤
                    100000000007 := by
                rw [fullMinState]
                exact fullMinAux_bounds maxd rows cols state (depth + 1)
                  (dummyTranslate ChipType.O) hfullO (List.range cols) 100000000007
                  (by norm_num) (by norm_num)
              exact ⟨le_min h1.1 h2.1, min_le_of_left_le h1.2⟩
            · simp only [if_neg hpar]
              have h1 : -100000000007 ≤ fullMaxState maxd rows cols state (depth + 1)
                    (dummyTranslate ChipType.T) ∧
                  fullMaxState maxd rows cols state (depth + 1) (dummyTranslate ChipType.T) ≤
                    100000000007 := by
                rw [fullMaxState]
                exact fullMaxAux_bounds maxd rows cols state (depth + 1)
                  (dummyTranslate ChipType.T) hfullTd (List.range cols) (-100000000007)
                  (by norm_num) (by norm_num)
              have h2 : -100000000007 ≤ fullMaxState maxd rows cols state (depth + 1)
                    (dummyTranslate ChipType.O) ∧
                  fullMaxState maxd rows cols state (depth + 1) (dummyTranslate ChipType.O) ≤
                    100000000007 := by
                rw [fullMaxState]
                exact fullMaxAux_bounds maxd rows cols state (depth + 1)
                  (dummyTranslate ChipType.O) hfullOd (List.range cols) (-100000000007)
                  (by norm_num) (by norm_num)
              exact ⟨le_max_of_le_left h1.1, max_le h1.2 h2.2⟩

/-- Clamp a value into the window `[a, b]`. -/
def clamp (a b x : Int) : Int := max a (min b x)

theorem fullMaxAux_ge (maxd rows cols : Nat) (state : DummyGrid) (depth : Nat) (amv : Int) :
    ∀ (cs : List Nat) (v : Int), v ≤ fullMaxAux maxd rows cols state depth amv cs v := by
  intro cs
  induction cs with
  | nil =>
    intro v
    rw [fullMaxAux]
  | cons j rest ih =>
    intro v
    rw [fullMaxAux]
    rcases hf : ai_fill_map rows cols state j amv with _ | st
    · exact ih v
    · dsimp only
      exact le_trans (le_max_left _ _) (ih _)

theorem fullMinAux_le (maxd rows cols : Nat) (state : DummyGrid) (depth : Nat) (amv : Int) :
    ∀ (cs : List Nat) (v : Int), fullMinAux maxd rows cols state depth amv cs v ≤ v := by
  intro cs
  induction cs with
  | nil =>
    intro v
    rw [fullMinAux]
  | cons j rest ih =>
    intro v
    rw [fullMinAux]
    rcases hf : ai_fill_map rows cols state j (amv * -1) with _ | st
    · exact ih v
    · dsimp only
      exact le_trans (ih _) (min_le_left _ _)

/-- The pruned max loop agrees with the unpruned fold after clamping into
the window `[alpha0, beta]`, provided each child call agrees after
clamping into its own window.  The loop's running `alpha` is
`max alpha0 v1`, its fail-soft running value `v1` never exceeds `beta`
while the loop is live, and the two running values agree after clamping. -/
theorem ai_max_aux_clamp (seq : Nat → Nat) (maxd rows cols : Nat) (state : DummyGrid)
    (depth : Nat) (beta amv alpha0 : Int)
    (hchild : ∀ (j : Nat) (st : DummyGrid) (alpha' : Int) (t : Nat),
      ai_fill_map rows cols state j amv = some st →
      -100000000007 ≤ alpha' → alpha' ≤ beta →
      clamp alpha' beta (ai_value seq maxd rows cols st depth alpha' beta amv t).1 =
        clamp alpha' beta (fullValue maxd rows cols st depth amv))
    (hA : -100000000007 ≤ alpha0) (hAB : alpha0 ≤ beta) :
    ∀ (cs : List Nat) (v1 v2 : Int) (queue : List Nat) (tick : Nat), v1 ≤ beta →
      clamp alpha0 beta v1 = clamp alpha0 beta v2 →
      clamp alpha0 beta
        (ai_max_aux seq maxd rows cols state depth beta amv cs v1 queue
          (max alpha0 v1) tick).1 =
      clamp alpha0 beta (fullMaxAux maxd rows cols state depth amv cs v2) := by
  intro cs
  induction cs with
  | nil =>
    intro v1 v2 queue tick hv1 hcl
    rw [ai_max_aux, fullMaxAux]
    split <;> exact hcl
  | cons j rest ih =>
    intro v1 v2 queue tick hv1 hcl
    rw [ai_max_aux, fullMaxAux]
    rcases hf : ai_fill_map rows cols state j amv with _ | st
    · exact ih v1 v2 queue tick hv1 hcl
    · dsimp only
      have hcr := hchild j st (max alpha0 v1) tick hf (le_trans hA (le_max_left _ _))
        (max_le hAB hv1)
      set r := (ai_value seq maxd rows cols st depth (max alpha0 v1) beta amv tick).1
        with hrdef
      set F := fullValue maxd rows cols st depth amv with hFdef
      have hv' : (if r > v1 then r else v1) = max v1 r := by
        split <;> omega
      rw [hv']
      by_cases hcut : max v1 r > beta
      · rw [if_pos hcut]
        have hge := fullMaxAux_ge maxd rows cols state depth amv rest (max v2 F)
        dsimp only
        simp only [clamp] at hcr hcl ⊢
        omega
      · rw [if_neg hcut]
        have hre : max (max alpha0 v1) (max v1 r) = max alpha0 (max v1 r) := by omega
        rw [hre]
        apply ih (max v1 r) (max v2 F) _ _ (by omega)
        simp only [clamp] at hcr hcl ⊢
        omega

/-- Symmetric statement for the pruned min loop: running `beta` is
`min beta0 v1`, the running value stays at or above `alpha`. -/
theorem ai_min_aux_clamp (seq : Nat → Nat) (maxd rows cols : Nat) (state : DummyGrid)
    (depth : Nat) (alpha amv beta0 : Int)
    (hchild : ∀ (j : Nat) (st : DummyGrid) (beta' : Int) (t : Nat),
      ai_fill_map rows cols state j (amv * -1) = some st →
      alpha ≤ beta' → beta' ≤ 100000000007 →
      clamp alpha beta' (ai_value seq maxd rows cols st depth alpha beta' amv t).1 =
        clamp alpha beta' (fullValue maxd rows cols st depth amv))
    (hB : beta0 ≤ 100000000007) (hAB : alpha ≤ beta0) :
    ∀ (cs : List Nat) (v1 v2 : Int) (queue : List Nat) (tick : Nat), alpha ≤ v1 →
      clamp alpha beta0 v1 = clamp alpha beta0 v2 →
      clamp alpha beta0
        (ai_min_aux seq maxd rows cols state depth alpha amv cs v1 queue
          (min beta0 v1) tick).1 =
      clamp alpha beta0 (fullMinAux maxd rows cols state depth amv cs v2) := by
  intro cs
  induction cs with
  | nil =>
    intro v1 v2 queue tick hv1 hcl
    rw [ai_min_aux, fullMinAux]
    split <;> exact hcl
  | cons j rest ih =>
    intro v1 v2 queue tick hv1 hcl
    rw [ai_min_aux, fullMinAux]
    rcases hf : ai_fill_map rows cols state j (amv * -1) with _ | st
    · exact ih v1 v2 queue tick hv1 hcl
    · dsimp only
      have hcr := hchild j st (min beta0 v1) tick hf (le_min hAB hv1)
        (le_trans (min_le_left _ _) hB)
      set r := (ai_value seq maxd rows cols st depth alpha (min beta0 v1) amv tick).1
        with hrdef
      set F := fullValue maxd rows cols st depth amv with hFdef
      have hv' : (if r < v1 then r else v1) = min v1 r := by
        split <;> omega
      rw [hv']
      by_cases hcut : min v1 r < alpha
      · rw [if_pos hcut]
        have hle := fullMinAux_le maxd rows cols state depth amv rest (min v2 F)
        dsimp only
        simp only [clamp] at hcr hcl ⊢
        omega
      · rw [if_neg hcut]
        have hre : min (min beta0 v1) (min v1 r) = min beta0 (min v1 r) := by omega
        rw [hre]
        apply ih (min v1 r) (min v2 F) _ _ (by omega)
        simp only [clamp] at hcr hcl ⊢
        omega

theorem value_leaf_eq (seq : Nat → Nat) (maxd rows cols : Nat) (state : DummyGrid)
    (depth : Nat) (alpha beta amv : Int) (tick : Nat) (hd : maxd ≤ depth) :
    (ai_value seq maxd rows cols state depth alpha beta amv tick).1 =
      fullValue maxd rows cols state depth amv := by
  rw [ai_value, fullValue]
  rw [dif_pos hd, dif_pos hd]

/-- Core alpha-beta correctness: within any window `[alpha, beta]` inside
the sentinels, the pruned search value and the unpruned search value agree
after clamping into the window. -/
theorem ai_value_clamp_eq (maxd rows cols : Nat) (_hmaxd : maxd ≤ 1000) :
    ∀ (n : Nat) (seq : Nat → Nat) (state : DummyGrid) (depth : Nat)
      (alpha beta amv : Int) (tick : Nat),
      maxd - depth ≤ n → depth ≤ maxd → state.smallVals →
      state.num_rows * state.num_cols ≤ 80 → (amv = 1 ∨ amv = -1) →
      -100000000007 ≤ alpha → alpha ≤ beta → beta ≤ 100000000007 →
      clamp alpha beta (ai_value seq maxd rows cols state depth alpha beta amv tick).1 =
        clamp alpha beta (fullValue maxd rows cols state depth amv) := by
  intro n
  induction n with
  | zero =>
    intro seq state depth alpha beta amv tick hn hdep hsv hdim hamv hA hAB hB
    have hd : maxd ≤ depth := by omega
    rw [value_leaf_eq seq maxd rows cols state depth alpha beta amv tick hd]
  | succ n ih =>
    intro seq state depth alpha beta amv tick hn hdep hsv hdim hamv hA hAB hB
    by_cases hd : maxd ≤ depth
    · rw [value_leaf_eq seq maxd rows cols state depth alpha beta amv tick hd]
    · have hdep1 : depth + 1 ≤ maxd := by omega
      have hn1 : maxd - (depth + 1) ≤ n := by omega
      rw [ai_value, fullValue]
      rw [dif_neg hd, dif_neg hd]
      by_cases h4 : (ai_check_state state).1 = 4
      · simp only [if_pos h4]
      · simp only [if_neg h4]
        by_cases hm4 : (ai_check_state state).1 = 4 * -1
        · simp only [if_pos hm4]
        · simp only [if_neg hm4]
          by_cases hpar : depth % 2 = 0
          · simp only [if_pos hpar]
            have hchildT : ∀ (j : Nat) (st : DummyGrid) (beta' : Int) (t : Nat),
                ai_fill_map rows cols state j (dummyTranslate ChipType.T * -1) = some st →
                alpha ≤ beta' → beta' ≤ 100000000007 →
                clamp alpha beta' (ai_value seq maxd rows cols st (depth + 1) alpha beta'
                  (dummyTranslate ChipType.T) t).1 =
                  clamp alpha beta' (fullValue maxd rows cols st (depth + 1)
                    (dummyTranslate ChipType.T)) := by
              intro j st beta' t hf hab hbm
              obtain ⟨hsv', hr', hc'⟩ := ai_fill_map_preserves rows cols state j _ st hf hsv
                (by norm_num [dummyTranslate])
              exact ih seq st (depth + 1) alpha beta' (dummyTranslate ChipType.T) t hn1 hdep1
                hsv' (by rw [hr', hc']; exact hdim) (Or.inl rfl) hA hab hbm
            have hchildO : ∀ (j : Nat) (st : DummyGrid) (beta' : Int) (t : Nat),
                ai_fill_map rows cols state j (dummyTranslate ChipType.O * -1) = some st →
                alpha ≤ beta' → beta' ≤ 100000000007 →
                clamp alpha beta' (ai_value seq maxd rows cols st (depth + 1) alpha beta'
                  (dummyTranslate ChipType.O) t).1 =
                  clamp alpha beta' (fullValue maxd rows cols st (depth + 1)
                    (dummyTranslate ChipType.O)) := by
              intro j st beta' t hf hab hbm
              obtain ⟨hsv', hr', hc'⟩ := ai_fill_map_preserves rows cols state j _ st hf hsv
                (by norm_num [dummyTranslate])
              exact ih seq st (depth + 1) alpha beta' (dummyTranslate ChipType.O) t hn1 hdep1
                hsv' (by rw [hr', hc']; exact hdim) (Or.inr rfl) hA hab hbm
            have ht : clamp alpha beta (ai_min_state seq maxd rows cols state (depth + 1)
                alpha beta (dummyTranslate ChipType.T) tick).1 =
                clamp alpha beta (fullMinState maxd rows cols state (depth + 1)
                  (dummyTranslate ChipType.T)) := by
              rw [ai_min_state, fullMinState]
              have hx := ai_min_aux_clamp seq maxd rows cols state (depth + 1) alpha
                (dummyTranslate ChipType.T) beta hchildT hB hAB (List.range cols)
                100000000007 100000000007 [] tick (by omega) rfl
              rwa [min_eq_left hB] at hx
            have ho : ∀ tk : Nat, clamp alpha beta (ai_min_state seq maxd rows cols state
                (depth + 1) alpha beta (dummyTranslate ChipType.O) tk).1 =
                clamp alpha beta (fullMinState maxd rows cols state (depth + 1)
                  (dummyTranslate ChipType.O)) := by
              intro tk
              rw [ai_min_state, fullMinState]
              have hx := ai_min_aux_clamp seq maxd rows cols state (depth + 1) alpha
                (dummyTranslate ChipType.O) beta hchildO hB hAB (List.range cols)
                100000000007 100000000007 [] tk (by omega) rfl
              rwa [min_eq_left hB] at hx
            have h2 := ho ((ai_min_state seq maxd rows cols state (depth + 1) alpha beta
              (dummyTranslate ChipType.T) tick).2.2)
            split_ifs <;> (dsimp only; simp only [clamp] at ht h2 ⊢; omega)
          · simp only [if_neg hpar]
            have hchildT : ∀ (j : Nat) (st : DummyGrid) (alpha' : Int) (t : Nat),
                ai_fill_map rows cols state j (dummyTranslate ChipType.T) = some st →
                -100000000007 ≤ alpha' → alpha' ≤ beta →
                clamp alpha' beta (ai_value seq maxd rows cols st (depth + 1) alpha' beta
                  (dummyTranslate ChipType.T) t).1 =
                  clamp alpha' beta (fullValue maxd rows cols st (depth + 1)
                    (dummyTranslate ChipType.T)) := by
              intro j st alpha' t hf ham hab
              obtain ⟨hsv', hr', hc'⟩ := ai_fill_map_preserves rows cols state j _ st hf hsv
                (by norm_num [dummyTranslate])
              exact ih seq st (depth + 1) alpha' beta (dummyTranslate ChipType.T) t hn1 hdep1
                hsv' (by rw [hr', hc']; exact hdim) (Or.inl rfl) ham hab hB
            have hchildO : ∀ (j : Nat) (st : DummyGrid) (alpha' : Int) (t : Nat),
                ai_fill_map rows cols state j (dummyTranslate ChipType.O) = some st →
                -100000000007 ≤ alpha' → alpha' ≤ beta →
                clamp alpha' beta (ai_value seq maxd rows cols st (depth + 1) alpha' beta
                  (dummyTranslate ChipType.O) t).1 =
                  clamp alpha' beta (fullValue maxd rows cols st (depth + 1)
                    (dummyTranslate ChipType.O)) := by
              intro j st alpha' t hf ham hab
              obtain ⟨hsv', hr', hc'⟩ := ai_fill_map_preserves rows cols state j _ st hf hsv
                (by norm_num [dummyTranslate])
              exact ih seq st (depth + 1) alpha' beta (dummyTranslate ChipType.O) t hn1 hdep1
                hsv' (by rw [hr', hc']; exact hdim) (Or.inr rfl) ham hab hB
            have ht : clamp alpha beta (ai_max_state seq maxd rows cols state (depth + 1)
                alpha beta (dummyTranslate ChipType.T) tick).1 =
                clamp alpha beta (fullMaxState maxd rows cols state (depth + 1)
                  (dummyTranslate ChipType.T)) := by
              rw [ai_max_state, fullMaxState]
              have hx := ai_max_aux_clamp seq maxd rows cols state (depth + 1) beta
                (dummyTranslate ChipType.T) alpha hchildT hA hAB (List.range cols)
                (-100000000007) (-100000000007) [] tick (by omega) rfl
              rwa [max_eq_left hA] at hx
            have ho : ∀ tk : Nat, clamp alpha beta (ai_max_state seq maxd rows cols state
                (depth + 1) alpha beta (dummyTranslate ChipType.O) tk).1 =
                clamp alpha beta (fullMaxState maxd rows cols state (depth + 1)
                  (dummyTranslate ChipType.O)) := by
              intro tk
              rw [ai_max_state, fullMaxState]
              have hx := ai_max_aux_clamp seq maxd rows cols state (depth + 1) beta
                (dummyTranslate ChipType.O) alpha hchildO hA hAB (List.range cols)
                (-100000000007) (-100000000007) [] tk (by omega) rfl
              rwa [max_eq_left hA] at hx
            have h2 := ho ((ai_max_state seq maxd rows cols state (depth + 1) alpha beta
              (dummyTranslate ChipType.T) tick).2.2)
            split_ifs <;> (dsimp only; simp only [clamp] at ht h2 ⊢; omega)

/-- C5: For every board (with chip-valued cells and at most 80 logical
cells), every depth, and every root chip value, the pruned search
(`ai_max_state` / `ai_min_state` with the code's finite root window
`(-100000000007, 100000000007)`, pruning when the running value strictly
exceeds `beta` resp. falls strictly below `alpha`) returns the same score
as the same search run with pruning disabled (full exploration); the
returned column may differ on ties, and the score is independent of the
random draw sequence. -/
theorem C5_alpha_beta_equivalence (seq : Nat → Nat) (maxd rows cols : Nat)
    (state : DummyGrid) (depth : Nat) (amv : Int) (tick : Nat)
    (hmaxd : maxd ≤ 1000) (hdep : depth ≤ maxd) (hsv : state.smallVals)
    (hdim : state.num_rows * state.num_cols ≤ 80) (hamv : amv = 1 ∨ amv = -1) :
    (ai_max_state seq maxd rows cols state depth (-100000000007) 100000000007 amv tick).1 =
      fullMaxState maxd rows cols state depth amv ∧
    (ai_min_state seq maxd rows cols state depth (-100000000007) 100000000007 amv tick).1 =
      fullMinState maxd rows cols state depth amv := by
  have hamv3 : amv = -1 ∨ amv = 0 ∨ amv = 1 := by
    rcases hamv with rfl | rfl
    · exact Or.inr (Or.inr rfl)
    · exact Or.inl rfl
  have hamv3n : amv * -1 = -1 ∨ amv * -1 = 0 ∨ amv * -1 = 1 := by
    rcases hamv with rfl | rfl
    · exact Or.inl (by norm_num)
    · exact Or.inr (Or.inr (by norm_num))
  have hpres : ∀ (w : Int), (w = -1 ∨ w = 0 ∨ w = 1) → ∀ (j : Nat) (st : DummyGrid),
      ai_fill_map rows cols state j w = some st →
      st.smallVals ∧ st.num_rows * st.num_cols ≤ 80 := by
    intro w hw j st hf
    obtain ⟨hsv', hr', hc'⟩ := ai_fill_map_preserves rows cols state j w st hf hsv hw
    exact ⟨hsv', by rw [hr', hc']; exact hdim⟩
  have hchildC : ∀ (j : Nat) (st : DummyGrid) (alpha' : Int) (t : Nat),
      ai_fill_map rows cols state j amv = some st →
      -100000000007 ≤ alpha' → alpha' ≤ 100000000007 →
      clamp alpha' 100000000007
          (ai_value seq maxd rows cols st depth alpha' 100000000007 amv t).1 =
        clamp alpha' 100000000007 (fullValue maxd rows cols st depth amv) := by
    intro j st alpha' t hf ham hab
    obtain ⟨hsv', hdim'⟩ := hpres amv hamv3 j st hf
    exact ai_value_clamp_eq maxd rows cols hmaxd (maxd - depth) seq st depth alpha'
      100000000007 amv t le_rfl hdep hsv' hdim' hamv ham hab le_rfl
  have hchildM : ∀ (j : Nat) (st : DummyGrid) (beta' : Int) (t : Nat),
      ai_fill_map rows cols state j (amv * -1) = some st →
      -100000000007 ≤ beta' → beta' ≤ 100000000007 →
      clamp (-100000000007) beta'
          (ai_value seq maxd rows cols st depth (-100000000007) beta' amv t).1 =
        clamp (-100000000007) beta' (fullValue maxd rows cols st depth amv) := by
    intro j st beta' t hf ham hab
    obtain ⟨hsv', hdim'⟩ := hpres (amv * -1) hamv3n j st hf
    exact ai_value_clamp_eq maxd rows cols hmaxd (maxd - depth) seq st depth
      (-100000000007) beta' amv t le_rfl hdep hsv' hdim' hamv (le_refl _) ham hab
  have hboundC : ∀ (j : Nat) (st : DummyGrid) (alpha' beta' : Int) (t : Nat),
      ai_fill_map rows cols state j amv = some st →
      -100000000007 ≤ (ai_value seq maxd rows cols st depth alpha' beta' amv t).1 ∧
        (ai_value seq maxd rows cols st depth alpha' beta' amv t).1 ≤ 100000000007 := by
    intro j st alpha' beta' t hf
    obtain ⟨hsv', hdim'⟩ := hpres amv hamv3 j st hf
    exact (value_bounds maxd rows cols hmaxd (maxd - depth) seq st depth alpha' beta' amv t
      le_rfl hdep hsv' hdim' hamv).1
  have hboundM : ∀ (j : Nat) (st : DummyGrid) (alpha' beta' : Int) (t : Nat),
      ai_fill_map rows cols state j (amv * -1) = some st →
      -100000000007 ≤ (ai_value seq maxd rows cols st depth alpha' beta' amv t).1 ∧
        (ai_value seq maxd rows cols st depth alpha' beta' amv t).1 ≤ 100000000007 := by
    intro j st alpha' beta' t hf
    obtain ⟨hsv', hdim'⟩ := hpres (amv * -1) hamv3n j st hf
    exact (value_bounds maxd rows cols hmaxd (maxd - depth) seq st depth alpha' beta' amv t
      le_rfl hdep hsv' hdim' hamv).1
  have hfullC : ∀ (j : Nat) (st : DummyGrid),
      ai_fill_map rows cols state j amv = some st →
      -100000000007 ≤ fullValue maxd rows cols st depth amv ∧
        fullValue maxd rows cols st depth amv ≤ 100000000007 := by
    intro j st hf
    obtain ⟨hsv', hdim'⟩ := hpres amv hamv3 j st hf
    exact (value_bounds maxd rows cols hmaxd (maxd - depth) seq st depth 0 0 amv 0
      le_rfl hdep hsv' hdim' hamv).2
  have hfullM : ∀ (j : Nat) (st : DummyGrid),
      ai_fill_map rows cols state j (amv * -1) = some st →
      -100000000007 ≤ fullValue maxd rows cols st depth amv ∧
        fullValue maxd rows cols st depth amv ≤ 100000000007 := by
    intro j st hf
    obtain ⟨hsv', hdim'⟩ := hpres (amv * -1) hamv3n j st hf
    exact (value_bounds maxd rows cols hmaxd (maxd - depth) seq st depth 0 0 amv 0
      le_rfl hdep hsv' hdim' hamv).2
  constructor
  · rw [ai_max_state, fullMaxState]
    have hcl := ai_max_aux_clamp seq maxd rows cols state depth 100000000007 amv
      (-100000000007) hchildC (le_refl _) (by norm_num) (List.range cols)
      (-100000000007) (-100000000007) [] tick (by norm_num) rfl
    rw [max_self] at hcl
    have hbp := ai_max_aux_bounds seq maxd rows cols state depth 100000000007 amv
      hboundC (List.range cols) (-100000000007) [] (-100000000007) tick
      (by norm_num) (by norm_num)
    have hbf := fullMaxAux_bounds maxd rows cols state depth amv hfullC (List.range cols)
      (-100000000007) (by norm_num) (by norm_num)
    simp only [clamp] at hcl
    omega
  · rw [ai_min_state, fullMinState]
    have hcl := ai_min_aux_clamp seq maxd rows cols state depth (-100000000007) amv
      100000000007 hchildM (le_refl _) (by norm_num) (List.range cols)
      100000000007 100000000007 [] tick (by norm_num) rfl
    rw [min_self] at hcl
    have hbp := ai_min_aux_bounds seq maxd rows cols state depth (-100000000007) amv
      hboundM (List.range cols) 100000000007 [] 100000000007 tick
      (by norm_num) (by norm_num)
    have hbf := fullMinAux_bounds maxd rows cols state depth amv hfullM (List.range cols)
      100000000007 (by norm_num) (by norm_num)
    simp only [clamp] at hcl
    omega

/-- Closed witness for C5 on an empty 1×1 board at depth 0. -/
theorem C5_alpha_beta_equivalence_witness :
    (ai_max_state (fun _ => 0) 0 1 1 (DummyGrid.new 1 1) 0
        (-100000000007) 100000000007 1 0).1 =
      fullMaxState 0 1 1 (DummyGrid.new 1 1) 0 1 ∧
    (ai_min_state (fun _ => 0) 0 1 1 (DummyGrid.new 1 1) 0
        (-100000000007) 100000000007 1 0).1 =
      fullMinState 0 1 1 (DummyGrid.new 1 1) 0 1 :=
  C5_alpha_beta_equivalence (fun _ => 0) 0 1 1 (DummyGrid.new 1 1) 0 1 0
    (by norm_num) (by norm_num) (by decide) (by decide) (Or.inl rfl)

theorem find?_range_eq_some (p : Nat → Bool) (m : Nat) :
    ∀ (n : Nat), m < n → p m = true → (∀ i, i < m → p i = false) →
      (List.range n).find? p = some m := by
  intro n
  induction n with
  | zero => intro h; omega
  | succ n ih =>
    intro hm hp hlt
    rw [List.range_succ, List.find?_append]
    rcases Nat.lt_or_ge m n with h | h
    · rw [ih h hp hlt]
      rfl
    · have hmn : m = n := by omega
      subst hmn
      have hnone : (List.range m).find? p = none := by
        rw [List.find?_eq_none]
        intro x hx
        rw [List.mem_range] at hx
        simp [hlt x (by omega)]
      rw [hnone]
      simp [hp]

/-- C10: On a positive-height board whose column `c` satisfies the
gravity invariant (`k` chips stacked from the bottom), with matching
dimensions and `c < cols`: the search's move simulator `ai_fill_map`
returns `some` exactly when `insert_chip` on a copy succeeds (i.e. unless
the column is full), and both place the chip at the same resolved row,
yielding identical grids. -/
theorem C10_ai_fill_map_refines_insert (rows cols : Nat) (state : DummyGrid) (c k : Nat)
    (v : Int) (hrows : state.num_rows = rows) (_hcols : state.num_cols = cols)
    (hrows0 : 0 < rows) (hc : c < cols) (hgrav : state.gravityCol c k) :
    ai_fill_map rows cols state c v = (state.insert_chip c v).map Prod.fst := by
  obtain ⟨hk, hocc⟩ := hgrav
  rw [hrows] at hk hocc
  rcases Nat.lt_or_ge k rows with hklt | hkge
  · have hins := (state.dummy_insert_chip_of_gravity c k v ⟨by rw [hrows]; omega, by
      rw [hrows]; exact fun r hr => hocc r hr⟩).1 (by rw [hrows]; exact hklt)
    rw [hrows] at hins
    rw [hins]
    have htop : state.get 0 c = 0 := by
      by_contra hne
      have := (hocc 0 (by omega)).mp hne
      omega
    unfold ai_fill_map
    rw [if_neg (by push_neg; exact ⟨by simp [htop], by omega⟩)]
    have hrow : (match (List.range (rows - 1)).find?
        (fun i => decide (state.get (i + 1) c ≠ 0)) with
        | some i => i
        | none => rows - 1) = rows - 1 - k := by
      rcases Nat.eq_zero_or_pos k with rfl | hkpos
      · have hnone : (List.range (rows - 1)).find?
            (fun i => decide (state.get (i + 1) c ≠ 0)) = none := by
          rw [List.find?_eq_none]
          intro x hx
          rw [List.mem_range] at hx
          simp only [decide_eq_true_eq, Decidable.not_not]
          by_contra hne
          have := (hocc (x + 1) (by omega)).mp hne
          omega
        rw [hnone]
        simp
      · have hsome := find?_range_eq_some
          (fun i => decide (state.get (i + 1) c ≠ 0)) (rows - 1 - k) (rows - 1)
          (by omega)
          (by
            simp only [decide_eq_true_eq]
            exact (hocc (rows - 1 - k + 1) (by omega)).mpr (by omega))
          (by
            intro i hi
            simp only [decide_eq_false_iff_not, Decidable.not_not]
            by_contra hne
            have := (hocc (i + 1) (by omega)).mp hne
            omega)
        rw [hsome]
    rw [hrow]
    rfl
  · have hkeq : k = rows := by omega
    have hins := (state.dummy_insert_chip_of_gravity c k v ⟨by rw [hrows]; omega, by
      rw [hrows]; exact fun r hr => hocc r hr⟩).2 (by rw [hrows]; exact hkeq)
    rw [hins]
    have htop : state.get 0 c ≠ 0 :=
      (hocc 0 (by omega)).mpr (by omega)
    unfold ai_fill_map
    rw [if_pos (Or.inl htop)]
    rfl

/-- Closed witness for C10: a 2×1 board with one chip in its only column. -/
theorem C10_ai_fill_map_refines_insert_witness :
    ai_fill_map 2 1 ((DummyGrid.new 2 1).set 1 0 1) 0 (-1) =
      ((((DummyGrid.new 2 1).set 1 0 1)).insert_chip 0 (-1)).map Prod.fst :=
  C10_ai_fill_map_refines_insert 2 1 ((DummyGrid.new 2 1).set 1 0 1) 0 1 (-1)
    rfl rfl (by norm_num) (by norm_num) (by decide)

/-- Two's-complement `as usize` cast of an `i64` value. -/
def usizeOfI64 (x : Int) : Nat := (x % (2 ^ 64)).toNat

/-- Embeds `Game::ai_move_val`: two root `ai_max_state` searches over a clone of
the dummy grid — one playing `T`, one playing `O` — then the chip with the
higher root value wins (coin flip on exact ties).  Returns
`(chip, column, next draw counter)`. -/
def ai_move_val (seq : Nat → Nat) (game : Game) (tick : Nat) : ChipType × Nat × Nat :=
  let state := game.dummy_grid
  let t := ai_max_state seq game.max_ai_depth game.grid.num_rows game.grid.num_cols state 0
    (-100000000007) 100000000007 (dummyTranslate ChipType.T) tick
  let o := ai_max_state seq game.max_ai_depth game.grid.num_rows game.grid.num_cols state 0
    (-100000000007) 100000000007 (dummyTranslate ChipType.O) t.2.2
  if t.1 > o.1 then (ChipType.T, usizeOfI64 t.2.1, o.2.2)
  else if t.1 < o.1 then (ChipType.O, usizeOfI64 o.2.1, o.2.2)
  else if seq o.2.2 % 2 = 0 then (ChipType.T, usizeOfI64 t.2.1, o.2.2 + 1)
  else (ChipType.O, usizeOfI64 o.2.1, o.2.2 + 1)

theorem choose_mem (seq : Nat → Nat) (tick : Nat) (l : List Nat) (h : l ≠ []) :
    choose seq tick l ∈ l := by
  unfold choose
  have hlt : seq tick % l.length < l.length :=
    Nat.mod_lt _ (List.length_pos.mpr h)
  rw [List.getD_eq_getElem l 0 hlt]
  exact List.getElem_mem hlt

theorem ai_fill_map_none_iff (rows cols : Nat) (state : DummyGrid) (j : Nat) (w : Int) :
    ai_fill_map rows cols state j w = none ↔ (state.get 0 j ≠ 0 ∨ cols ≤ j) := by
  unfold ai_fill_map
  split_ifs with h
  · simp [h]
  · simp [h]

/-- Every column the pruned max loop can return (under the root window's
`beta = 100000000007`, with bounded child values) is a playable column:
below `cols` and with an empty top cell. -/
theorem ai_max_aux_move_valid (seq : Nat → Nat) (maxd rows cols : Nat) (state : DummyGrid)
    (depth : Nat) (amv : Int)
    (hbound : ∀ (j : Nat) (st : DummyGrid) (alpha' : Int) (t : Nat),
      ai_fill_map rows cols state j amv = some st →
      -100000000007 ≤ (ai_value seq maxd rows cols st depth alpha' 100000000007 amv t).1 ∧
        (ai_value seq maxd rows cols st depth alpha' 100000000007 amv t).1 ≤ 100000000007) :
    ∀ (cs : List Nat) (v : Int) (queue : List Nat) (alpha : Int) (tick : Nat),
      -100000000007 ≤ v → v ≤ 100000000007 →
      (v = -100000000007 ∨ queue ≠ []) →
      (∀ q ∈ queue, q < cols ∧ state.get 0 q = 0) →
      ((∃ j ∈ cs, j < cols ∧ state.get 0 j = 0) ∨ queue ≠ []) →
      ∃ c : Nat, c < cols ∧ state.get 0 c = 0 ∧
        (ai_max_aux seq maxd rows cols state depth 100000000007 amv cs v queue
          alpha tick).2.1 = (c : Int) := by
  intro cs
  induction cs with
  | nil =>
    intro v queue alpha tick hv1 hv2 hvq hq hex
    have hqne : queue ≠ [] := by
      rcases hex with ⟨j, hj, _⟩ | h
      · exact absurd hj (List.not_mem_nil j)
      · exact h
    rw [ai_max_aux]
    rw [if_neg (by simpa [List.length_eq_zero] using hqne)]
    obtain ⟨hc1, hc2⟩ := hq (choose seq tick queue) (choose_mem seq tick queue hqne)
    exact ⟨choose seq tick queue, hc1, hc2, rfl⟩
  | cons j rest ih =>
    intro v queue alpha tick hv1 hv2 hvq hq hex
    rw [ai_max_aux]
    rcases hf : ai_fill_map rows cols state j amv with _ | st
    · have hnv := (ai_fill_map_none_iff rows cols state j amv).mp hf
      apply ih v queue alpha tick hv1 hv2 hvq hq
      rcases hex with ⟨j', hj', hval⟩ | h
      · rcases List.mem_cons.mp hj' with rfl | hmem
        · rcases hnv with h1 | h1
          · exact absurd hval.2 (by simpa using h1)
          · omega
        · exact Or.inl ⟨j', hmem, hval⟩
      · exact Or.inr h
    · have hjval : state.get 0 j = 0 ∧ j < cols := by
        rcases eq_or_ne (state.get 0 j) 0 with h0 | h0
        · rcases Nat.lt_or_ge j cols with h1 | h1
          · exact ⟨h0, h1⟩
          · exfalso
            have hno : ai_fill_map rows cols state j amv = none := by
              unfold ai_fill_map
              rw [if_pos (Or.inr h1)]
            rw [hno] at hf
            exact Option.noConfusion hf
        · exfalso
          have hno : ai_fill_map rows cols state j amv = none := by
            unfold ai_fill_map
            rw [if_pos (Or.inl h0)]
          rw [hno] at hf
          exact Option.noConfusion hf
      obtain ⟨hr1, hr2⟩ := hbound j st alpha tick hf
      dsimp only
      set r := (ai_value seq maxd rows cols st depth alpha 100000000007 amv tick).1
        with hrdef
      have hv' : (if r > v then r else v) = max v r := by
        split <;> omega
      rw [hv']
      rw [if_neg (by omega)]
      rcases lt_trichotomy v r with hc | hc | hc
      · simp only [if_pos (show r > v from hc)]
        exact ih (max v r) [j] _ _ (by omega) (by omega) (Or.inr (by simp))
          (by
            intro q hqm
            rcases List.mem_singleton.mp hqm with rfl
            exact ⟨hjval.2, hjval.1⟩)
          (Or.inr (by simp))
      · have hngt : ¬ r > v := by omega
        simp only [if_neg hngt, if_pos hc.symm]
        exact ih (max v r) (queue ++ [j]) _ _ (by omega) (by omega) (Or.inr (by simp))
          (by
            intro q hqm
            rcases List.mem_append.mp hqm with hqm | hqm
            · exact hq q hqm
            · rcases List.mem_singleton.mp hqm with rfl
              exact ⟨hjval.2, hjval.1⟩)
          (Or.inr (by simp))
      · have hngt : ¬ r > v := by omega
        have hne : ¬ r = v := by omega
        simp only [if_neg hngt, if_neg hne]
        have hqne : queue ≠ [] := by
          rcases hvq with h0 | h0
          · omega
          · exact h0
        exact ih (max v r) queue _ _ (by omega) (by omega) (Or.inr hqne) hq (Or.inr hqne)

/-- Root-level: `ai_max_state` with the root window returns a playable
column whenever one exists. -/
theorem ai_max_state_move_valid (seq : Nat → Nat) (maxd rows cols : Nat) (state : DummyGrid)
    (depth : Nat) (amv : Int) (tick : Nat)
    (hmaxd : maxd ≤ 1000) (hdep : depth ≤ maxd) (hsv : state.smallVals)
    (hdim : state.num_rows * state.num_cols ≤ 80) (hamv : amv = 1 ∨ amv = -1)
    (hex : ∃ c, c < cols ∧ state.get 0 c = 0) :
    ∃ c : Nat, c < cols ∧ state.get 0 c = 0 ∧
      (ai_max_state seq maxd rows cols state depth (-100000000007) 100000000007 amv
        tick).2.1 = (c : Int) := by
  have hamv3 : amv = -1 ∨ amv = 0 ∨ amv = 1 := by
    rcases hamv with rfl | rfl
    · exact Or.inr (Or.inr rfl)
    · exact Or.inl rfl
  have hbound : ∀ (j : Nat) (st : DummyGrid) (alpha' : Int) (t : Nat),
      ai_fill_map rows cols state j amv = some st →
      -100000000007 ≤ (ai_value seq maxd rows cols st depth alpha' 100000000007 amv t).1 ∧
        (ai_value seq maxd rows cols st depth alpha' 100000000007 amv t).1 ≤ 100000000007 := by
    intro j st alpha' t hf
    obtain ⟨hsv', hr', hc'⟩ := ai_fill_map_preserves rows cols state j amv st hf hsv hamv3
    exact (value_bounds maxd rows cols hmaxd (maxd - depth) seq st depth alpha' 100000000007
      amv t le_rfl hdep hsv' (by rw [hr', hc']; exact hdim) hamv).1
  rw [ai_max_state]
  apply ai_max_aux_move_valid seq maxd rows cols state depth amv hbound (List.range cols)
    (-100000000007) [] (-100000000007) tick (by norm_num) (by norm_num) (Or.inl rfl)
    (by intro q hq; exact absurd hq (List.not_mem_nil q))
  obtain ⟨c, hc1, hc2⟩ := hex
  exact Or.inl ⟨c, List.mem_range.mpr hc1, hc1, hc2⟩

/-- C7: For every game state in which at least one column is not full
(top cell empty), the AI decision `ai_move_val` returns a column index
below `num_cols` whose top cell is empty — it never selects a full column,
because `ai_fill_map` filters full columns out before recursion.  (As
everywhere, the board is assumed to carry chip-valued cells within the
80-cell capacity and a sane search depth.) -/
theorem C7_ai_move_val_valid_column (seq : Nat → Nat) (game : Game) (tick : Nat)
    (hmaxd : game.max_ai_depth ≤ 1000) (hsv : game.dummy_grid.smallVals)
    (hdim : game.dummy_grid.num_rows * game.dummy_grid.num_cols ≤ 80)
    (hcols : game.grid.num_cols ≤ 80)
    (hex : ∃ c, c < game.grid.num_cols ∧ game.dummy_grid.get 0 c = 0) :
    (ai_move_val seq game tick).2.1 < game.grid.num_cols ∧
      game.dummy_grid.get 0 (ai_move_val seq game tick).2.1 = 0 := by
  obtain ⟨ct, hct1, hct2, hct3⟩ := ai_max_state_move_valid seq game.max_ai_depth
    game.grid.num_rows game.grid.num_cols game.dummy_grid 0 (dummyTranslate ChipType.T) tick
    hmaxd (Nat.zero_le _) hsv hdim (Or.inl rfl) hex
  obtain ⟨co, hco1, hco2, hco3⟩ := ai_max_state_move_valid seq game.max_ai_depth
    game.grid.num_rows game.grid.num_cols game.dummy_grid 0 (dummyTranslate ChipType.O)
    ((ai_max_state seq game.max_ai_depth game.grid.num_rows game.grid.num_cols
      game.dummy_grid 0 (-100000000007) 100000000007 (dummyTranslate ChipType.T) tick).2.2)
    hmaxd (Nat.zero_le _) hsv hdim (Or.inr rfl) hex
  have hcastT : usizeOfI64 (ct : Int) = ct := by
    unfold usizeOfI64
    omega
  have hcastO : usizeOfI64 (co : Int) = co := by
    unfold usizeOfI64
    omega
  unfold ai_move_val
  dsimp only
  rw [hct3, hco3, hcastT, hcastO]
  split_ifs <;> first | exact ⟨hct1, hct2⟩ | exact ⟨hco1, hco2⟩

/-- Closed witness for C7 on a fresh 1×1 game. -/
theorem C7_ai_move_val_valid_column_witness :
    (ai_move_val (fun _ => 0) (Game.new 1 1 false "a" "b" 0) 0).2.1 <
      (Game.new 1 1 false "a" "b" 0).grid.num_cols ∧
    (Game.new 1 1 false "a" "b" 0).dummy_grid.get 0
      ((ai_move_val (fun _ => 0) (Game.new 1 1 false "a" "b" 0) 0).2.1) = 0 :=
  C7_ai_move_val_valid_column (fun _ => 0) (Game.new 1 1 false "a" "b" 0) 0
    (by decide) (by decide) (by decide) (by decide) ⟨0, by decide, by decide⟩

/-- The number of occupied backing slots of a board. -/
def NZ (g : DummyGrid) : Nat :=
  ((Finset.range 80).filter (fun i => g.items.getD i 0 ≠ 0)).card

theorem getD_set_ne (l : List Int) (w d : Int) :
    ∀ (i x : Nat), x ≠ i → (l.set i w).getD x d = l.getD x d := by
  induction l with
  | nil => intro i x _; simp
  | cons a t ih =>
    intro i x hne
    cases i with
    | zero =>
      cases x with
      | zero => omega
      | succ m => simp [List.getD]
    | succ n =>
      cases x with
      | zero => simp [List.getD]
      | succ m =>
        simp only [List.set, List.getD_cons_succ]
        exact ih n m (by omega)

theorem getD_replicate_zero (n : Nat) : ∀ (i : Nat), (List.replicate n (0 : Int)).getD i 0 = 0 := by
  induction n with
  | zero => intro i; simp
  | succ m ih =>
    intro i
    cases i with
    | zero => simp [List.replicate_succ, List.getD]
    | succ k =>
      simp only [List.replicate_succ, List.getD_cons_succ]
      exact ih k

theorem NZ_new (rows cols : Nat) : NZ (DummyGrid.new rows cols) = 0 := by
  unfold NZ DummyGrid.new
  rw [Finset.card_eq_zero, Finset.filter_eq_empty_iff]
  intro x _
  simp only [ne_eq, Decidable.not_not]
  exact getD_replicate_zero 80 x

theorem NZ_set_le (g : DummyGrid) (r c : Nat) (w : Int) :
    NZ (g.set r c w) ≤ NZ g + 1 := by
  unfold NZ
  have hsub : (Finset.range 80).filter (fun i => (g.set r c w).items.getD i 0 ≠ 0) ⊆
      insert (c * g.num_rows + (g.num_rows - 1 - r))
        ((Finset.range 80).filter (fun i => g.items.getD i 0 ≠ 0)) := by
    intro x hx
    rw [Finset.mem_filter] at hx
    rcases eq_or_ne x (c * g.num_rows + (g.num_rows - 1 - r)) with rfl | hne
    · exact Finset.mem_insert_self _ _
    · apply Finset.mem_insert_of_mem
      rw [Finset.mem_filter]
      refine ⟨hx.1, ?_⟩
      have hgd : (g.set r c w).items.getD x 0 = g.items.getD x 0 :=
        getD_set_ne g.items w 0 _ x hne
      rw [hgd] at hx
      exact hx.2
  calc ((Finset.range 80).filter (fun i => (g.set r c w).items.getD i 0 ≠ 0)).card
      ≤ (insert (c * g.num_rows + (g.num_rows - 1 - r))
          ((Finset.range 80).filter (fun i => g.items.getD i 0 ≠ 0))).card :=
        Finset.card_le_card hsub
    _ ≤ ((Finset.range 80).filter (fun i => g.items.getD i 0 ≠ 0)).card + 1 :=
        Finset.card_insert_le _ _

theorem DummyGrid.insertFrom_eq_set (g : DummyGrid) (col : Nat) (v : Int) :
    ∀ (n : Nat) (g' : DummyGrid) (row : Nat),
      g.insertFrom col v n = some (g', row) → g' = g.set row col v := by
  intro n
  induction n with
  | zero => intro g' row h; exact Option.noConfusion h
  | succ m ih =>
    intro g' row h
    rw [DummyGrid.insertFrom] at h
    split_ifs at h
    · obtain ⟨h1, h2⟩ := Prod.mk.injEq _ _ _ _ ▸ Option.some.inj h
      rw [← h1, ← h2]
    · exact ih g' row h

theorem DummyGrid.insert_chip_eq_set (g : DummyGrid) (col : Nat) (v : Int) (g' : DummyGrid)
    (row : Nat) (h : g.insert_chip col v = some (g', row)) : g' = g.set row col v :=
  g.insertFrom_eq_set col v g.num_rows g' row h

/-- An accepted `make_move` changes the dummy grid by exactly one `set` (and leaves its
dimensions unchanged). -/
theorem make_move_dummy (game : Game) (ct : ChipType) (col : Nat) (g' : Game)
    (rest : Nat × Nat × Int) (h : game.make_move ct col = some (g', rest)) :
    ∃ row, g'.dummy_grid = game.dummy_grid.set row col (dummyTranslate ct) := by
  unfold Game.make_move at h
  dsimp only at h
  rcases hg : game.grid.insert_chip col game.player_move_translate with _ | ⟨g1, row⟩
  · rw [hg] at h
    exact Option.noConfusion h
  · rw [hg] at h
    rcases hd : game.dummy_grid.insert_chip col (dummyTranslate ct) with _ | ⟨dg1, drow⟩
    · rw [hd] at h
      exact Option.noConfusion h
    · rw [hd] at h
      have hdg := game.dummy_grid.insert_chip_eq_set col (dummyTranslate ct) dg1 drow hd
      dsimp only at h
      rw [Option.some.injEq, Prod.mk.injEq] at h
      obtain ⟨hgame, -⟩ := h
      refine ⟨drow, ?_⟩
      rw [← hgame]
      split <;> (try split_ifs) <;> exact hdg

/-- Each accepted move adds at most one occupied slot and keeps the dummy
grid's dimensions. -/
theorem applyMoves_NZ_dims (ms : List (ChipType × Nat)) : ∀ (game g' : Game),
    game.applyMoves ms = some g' →
    NZ g'.dummy_grid ≤ NZ game.dummy_grid + ms.length ∧
      g'.dummy_grid.num_rows = game.dummy_grid.num_rows ∧
      g'.dummy_grid.num_cols = game.dummy_grid.num_cols := by
  induction ms with
  | nil =>
    intro game g' h
    simp only [Game.applyMoves] at h
    obtain rfl := Option.some.inj h
    exact ⟨by omega, rfl, rfl⟩
  | cons m rest ih =>
    intro game g' h
    simp only [Game.applyMoves] at h
    rcases hm : game.make_move m.1 m.2 with _ | ⟨g1, r1⟩
    · rw [hm] at h
      exact Option.noConfusion h
    · rw [hm] at h
      dsimp only at h
      obtain ⟨row, hset⟩ := make_move_dummy game m.1 m.2 g1 r1 hm
      obtain ⟨h1, h2, h3⟩ := ih g1 g' h
      refine ⟨?_, ?_, ?_⟩
      · have hle := NZ_set_le game.dummy_grid row m.2 (dummyTranslate m.1)
        rw [hset] at h1
        simp only [List.length_cons]
        omega
      · rw [h2, hset]
        rfl
      · rw [h3, hset]
        rfl

theorem cellIdx_inj (rows r1 c1 r2 c2 : Nat) (h1 : r1 < rows) (h2 : r2 < rows)
    (heq : c1 * rows + (rows - 1 - r1) = c2 * rows + (rows - 1 - r2)) :
    c1 = c2 ∧ r1 = r2 := by
  have hc : c1 = c2 := by
    rcases Nat.lt_trichotomy c1 c2 with h | h | h
    · exfalso
      have hk : (c1 + 1) * rows ≤ c2 * rows := Nat.mul_le_mul_right rows (by omega)
      have he : (c1 + 1) * rows = c1 * rows + rows := by ring
      omega
    · exact h
    · exfalso
      have hk : (c2 + 1) * rows ≤ c1 * rows := Nat.mul_le_mul_right rows (by omega)
      have he : (c2 + 1) * rows = c2 * rows + rows := by ring
      omega
  subst hc
  exact ⟨rfl, by omega⟩

theorem idx_lt_80 (rows cols r c : Nat) (hdim : rows * cols ≤ 80) (hr : r < rows)
    (hc : c < cols) : c * rows + (rows - 1 - r) < 80 := by
  have hk : (c + 1) * rows ≤ cols * rows := Nat.mul_le_mul_right rows (by omega)
  have he : (c + 1) * rows = c * rows + rows := by ring
  have he2 : cols * rows = rows * cols := by ring
  omega

/-- Four pairwise distinct occupied in-bounds cells force at least four
occupied slots. -/
theorem NZ_ge_four_cells (g : DummyGrid) (hdim : g.num_rows * g.num_cols ≤ 80)
    (r0 c0 r1 c1 r2 c2 r3 c3 : Nat)
    (hr0 : r0 < g.num_rows) (hr1 : r1 < g.num_rows) (hr2 : r2 < g.num_rows)
    (hr3 : r3 < g.num_rows)
    (hc0 : c0 < g.num_cols) (hc1 : c1 < g.num_cols) (hc2 : c2 < g.num_cols)
    (hc3 : c3 < g.num_cols)
    (hne01 : ¬(c0 = c1 ∧ r0 = r1)) (hne02 : ¬(c0 = c2 ∧ r0 = r2))
    (hne03 : ¬(c0 = c3 ∧ r0 = r3)) (hne12 : ¬(c1 = c2 ∧ r1 = r2))
    (hne13 : ¬(c1 = c3 ∧ r1 = r3)) (hne23 : ¬(c2 = c3 ∧ r2 = r3))
    (h0 : g.get r0 c0 ≠ 0) (h1 : g.get r1 c1 ≠ 0) (h2 : g.get r2 c2 ≠ 0)
    (h3 : g.get r3 c3 ≠ 0) : 4 ≤ NZ g := by
  set i0 := c0 * g.num_rows + (g.num_rows - 1 - r0) with hi0
  set i1 := c1 * g.num_rows + (g.num_rows - 1 - r1) with hi1
  set i2 := c2 * g.num_rows + (g.num_rows - 1 - r2) with hi2
  set i3 := c3 * g.num_rows + (g.num_rows - 1 - r3) with hi3
  have d01 : i0 ≠ i1 := fun he => hne01 (cellIdx_inj g.num_rows r0 c0 r1 c1 hr0 hr1 he)
  have d02 : i0 ≠ i2 := fun he => hne02 (cellIdx_inj g.num_rows r0 c0 r2 c2 hr0 hr2 he)
  have d03 : i0 ≠ i3 := fun he => hne03 (cellIdx_inj g.num_rows r0 c0 r3 c3 hr0 hr3 he)
  have d12 : i1 ≠ i2 := fun he => hne12 (cellIdx_inj g.num_rows r1 c1 r2 c2 hr1 hr2 he)
  have d13 : i1 ≠ i3 := fun he => hne13 (cellIdx_inj g.num_rows r1 c1 r3 c3 hr1 hr3 he)
  have d23 : i2 ≠ i3 := fun he => hne23 (cellIdx_inj g.num_rows r2 c2 r3 c3 hr2 hr3 he)
  have hmem : ∀ (r c : Nat), r < g.num_rows → c < g.num_cols → g.get r c ≠ 0 →
      c * g.num_rows + (g.num_rows - 1 - r) ∈
        (Finset.range 80).filter (fun i => g.items.getD i 0 ≠ 0) := by
    intro r c hr hc hnz
    rw [Finset.mem_filter, Finset.mem_range]
    exact ⟨idx_lt_80 g.num_rows g.num_cols r c hdim hr hc, hnz⟩
  have hsub : ({i0, i1, i2, i3} : Finset Nat) ⊆
      (Finset.range 80).filter (fun i => g.items.getD i 0 ≠ 0) := by
    intro x hx
    simp only [Finset.mem_insert, Finset.mem_singleton] at hx
    rcases hx with rfl | rfl | rfl | rfl
    · exact hmem r0 c0 hr0 hc0 h0
    · exact hmem r1 c1 hr1 hc1 h1
    · exact hmem r2 c2 hr2 hc2 h2
    · exact hmem r3 c3 hr3 hc3 h3
  have hcard : ({i0, i1, i2, i3} : Finset Nat).card = 4 := by
    rw [Finset.card_insert_of_not_mem (by simp [d01, d02, d03]),
      Finset.card_insert_of_not_mem (by simp [d12, d13]),
      Finset.card_insert_of_not_mem (by simp [d23]), Finset.card_singleton]
  calc (4 : Nat) = ({i0, i1, i2, i3} : Finset Nat).card := hcard.symm
    _ ≤ _ := Finset.card_le_card hsub

theorem tempR_facts (g : DummyGrid) (i j k : Nat) (c : Int) (hc : c ≠ 0)
    (h : tempR g i j k = c) : j + k < g.num_cols ∧ g.get i (j + k) ≠ 0 := by
  unfold tempR at h
  split_ifs at h with hb
  · exact ⟨hb, by rw [h]; exact hc⟩
  · exact absurd h.symm hc

theorem tempB_facts (g : DummyGrid) (i j k : Nat) (c : Int) (hc : c ≠ 0)
    (h : tempB g i j k = c) : i + k < g.num_rows ∧ g.get (i + k) j ≠ 0 := by
  unfold tempB at h
  split_ifs at h with hb
  · exact ⟨hb, by rw [h]; exact hc⟩
  · exact absurd h.symm hc

theorem tempBR_facts (g : DummyGrid) (i j k : Nat) (c : Int) (hc : c ≠ 0)
    (h : tempBR g i j k = c) :
    i + k < g.num_rows ∧ j + k < g.num_cols ∧ g.get (i + k) (j + k) ≠ 0 := by
  unfold tempBR at h
  split_ifs at h with hb
  · exact ⟨hb.1, hb.2, by rw [h]; exact hc⟩
  · exact absurd h.symm hc

theorem tempTR_facts (g : DummyGrid) (i j k : Nat) (c : Int) (hc : c ≠ 0)
    (h : tempTR g i j k = c) :
    k ≤ i ∧ j + k < g.num_cols ∧ g.get (i - k) (j + k) ≠ 0 := by
  unfold tempTR at h
  split_ifs at h with hb
  · exact ⟨hb.1, hb.2, by rw [h]; exact hc⟩
  · exact absurd h.symm hc

/-- A reported win pattern requires at least four occupied cells. -/
theorem scanWin_NZ (g : DummyGrid) (hdim : g.num_rows * g.num_cols ≤ 80) (w : Int)
    (hw : scanWin g = some w) : 4 ≤ NZ g := by
  unfold scanWin at hw
  obtain ⟨i, hi, hw1⟩ := List.exists_of_findSome?_eq_some hw
  obtain ⟨j, hj, hw2⟩ := List.exists_of_findSome?_eq_some hw1
  rw [List.mem_range] at hi hj
  simp only [cellWin, dummyTranslate] at hw2
  split_ifs at hw2 with h1 h2 h3 h4 h5 h6 h7 h8
  · obtain ⟨ha, hb, hc, hd⟩ := h1
    obtain ⟨hb0, hg0⟩ := tempR_facts g i j 0 1 (by norm_num) ha
    obtain ⟨hb1, hg1⟩ := tempR_facts g i j 1 (-1) (by norm_num) hb
    obtain ⟨hb2, hg2⟩ := tempR_facts g i j 2 (-1) (by norm_num) hc
    obtain ⟨hb3, hg3⟩ := tempR_facts g i j 3 1 (by norm_num) hd
    exact NZ_ge_four_cells g hdim i (j + 0) i (j + 1) i (j + 2) i (j + 3)
      hi hi hi hi hb0 hb1 hb2 hb3 (by omega) (by omega) (by omega) (by omega) (by omega)
      (by omega) hg0 hg1 hg2 hg3
  · obtain ⟨ha, hb, hc, hd⟩ := h2
    obtain ⟨hb0, hg0⟩ := tempR_facts g i j 0 (-1) (by norm_num) ha
    obtain ⟨hb1, hg1⟩ := tempR_facts g i j 1 1 (by norm_num) hb
    obtain ⟨hb2, hg2⟩ := tempR_facts g i j 2 1 (by norm_num) hc
    obtain ⟨hb3, hg3⟩ := tempR_facts g i j 3 (-1) (by norm_num) hd
    exact NZ_ge_four_cells g hdim i (j + 0) i (j + 1) i (j + 2) i (j + 3)
      hi hi hi hi hb0 hb1 hb2 hb3 (by omega) (by omega) (by omega) (by omega) (by omega)
      (by omega) hg0 hg1 hg2 hg3
  · obtain ⟨ha, hb, hc, hd⟩ := h3
    obtain ⟨hb0, hg0⟩ := tempB_facts g i j 0 1 (by norm_num) ha
    obtain ⟨hb1, hg1⟩ := tempB_facts g i j 1 (-1) (by norm_num) hb
    obtain ⟨hb2, hg2⟩ := tempB_facts g i j 2 (-1) (by norm_num) hc
    obtain ⟨hb3, hg3⟩ := tempB_facts g i j 3 1 (by norm_num) hd
    exact NZ_ge_four_cells g hdim (i + 0) j (i + 1) j (i + 2) j (i + 3) j
      hb0 hb1 hb2 hb3 hj hj hj hj (by omega) (by omega) (by omega) (by omega) (by omega)
      (by omega) hg0 hg1 hg2 hg3
  · obtain ⟨ha, hb, hc, hd⟩ := h4
    obtain ⟨hb0, hg0⟩ := tempB_facts g i j 0 (-1) (by norm_num) ha
    obtain ⟨hb1, hg1⟩ := tempB_facts g i j 1 1 (by norm_num) hb
    obtain ⟨hb2, hg2⟩ := tempB_facts g i j 2 1 (by norm_num) hc
    obtain ⟨hb3, hg3⟩ := tempB_facts g i j 3 (-1) (by norm_num) hd
    exact NZ_ge_four_cells g hdim (i + 0) j (i + 1) j (i + 2) j (i + 3) j
      hb0 hb1 hb2 hb3 hj hj hj hj (by omega) (by omega) (by omega) (by omega) (by omega)
      (by omega) hg0 hg1 hg2 hg3
  · obtain ⟨ha, hb, hc, hd⟩ := h5
    obtain ⟨hr0, hb0, hg0⟩ := tempBR_facts g i j 0 1 (by norm_num) ha
    obtain ⟨hr1, hb1, hg1⟩ := tempBR_facts g i j 1 (-1) (by norm_num) hb
    obtain ⟨hr2, hb2, hg2⟩ := tempBR_facts g i j 2 (-1) (by norm_num) hc
    obtain ⟨hr3, hb3, hg3⟩ := tempBR_facts g i j 3 1 (by norm_num) hd
    exact NZ_ge_four_cells g hdim (i + 0) (j + 0) (i + 1) (j + 1) (i + 2) (j + 2)
      (i + 3) (j + 3) hr0 hr1 hr2 hr3 hb0 hb1 hb2 hb3 (by omega) (by omega) (by omega)
      (by omega) (by omega) (by omega) hg0 hg1 hg2 hg3
  · obtain ⟨ha, hb, hc, hd⟩ := h6
    obtain ⟨hr0, hb0, hg0⟩ := tempBR_facts g i j 0 (-1) (by norm_num) ha
    obtain ⟨hr1, hb1, hg1⟩ := tempBR_facts g i j 1 1 (by norm_num) hb
    obtain ⟨hr2, hb2, hg2⟩ := tempBR_facts g i j 2 1 (by norm_num) hc
    obtain ⟨hr3, hb3, hg3⟩ := tempBR_facts g i j 3 (-1) (by norm_num) hd
    exact NZ_ge_four_cells g hdim (i + 0) (j + 0) (i + 1) (j + 1) (i + 2) (j + 2)
      (i + 3) (j + 3) hr0 hr1 hr2 hr3 hb0 hb1 hb2 hb3 (by omega) (by omega) (by omega)
      (by omega) (by omega) (by omega) hg0 hg1 hg2 hg3
  · obtain ⟨ha, hb, hc, hd⟩ := h7
    obtain ⟨hk0, hb0, hg0⟩ := tempTR_facts g i j 0 1 (by norm_num) ha
    obtain ⟨hk1, hb1, hg1⟩ := tempTR_facts g i j 1 (-1) (by norm_num) hb
    obtain ⟨hk2, hb2, hg2⟩ := tempTR_facts g i j 2 (-1) (by norm_num) hc
    obtain ⟨hk3, hb3, hg3⟩ := tempTR_facts g i j 3 1 (by norm_num) hd
    exact NZ_ge_four_cells g hdim (i - 0) (j + 0) (i - 1) (j + 1) (i - 2) (j + 2)
      (i - 3) (j + 3) (by omega) (by omega) (by omega) (by omega) hb0 hb1 hb2 hb3
      (by omega) (by omega) (by omega) (by omega) (by omega) (by omega) hg0 hg1 hg2 hg3
  · obtain ⟨ha, hb, hc, hd⟩ := h8
    obtain ⟨hk0, hb0, hg0⟩ := tempTR_facts g i j 0 (-1) (by norm_num) ha
    obtain ⟨hk1, hb1, hg1⟩ := tempTR_facts g i j 1 1 (by norm_num) hb
    obtain ⟨hk2, hb2, hg2⟩ := tempTR_facts g i j 2 1 (by norm_num) hc
    obtain ⟨hk3, hb3, hg3⟩ := tempTR_facts g i j 3 (-1) (by norm_num) hd
    exact NZ_ge_four_cells g hdim (i - 0) (j + 0) (i - 1) (j + 1) (i - 2) (j + 2)
      (i - 3) (j + 3) (by omega) (by omega) (by omega) (by omega) hb0 hb1 hb2 hb3
      (by omega) (by omega) (by omega) (by omega) (by omega) (by omega) hg0 hg1 hg2 hg3

/-- C6 counterexample: Four accepted moves — `T` in column 0, `O` in
column 1, `O` in column 2, `T` in column 3 — build `T O O T` on the bottom
row, and `check_win` reports player 1's win after only 4 moves, refuting
"never before move 7".  (Either player may place either chip symbol, so
four moves suffice.) -/
theorem C6_counterexample_win_after_4_moves :
    (((Game.new 6 7 false "P1" "P2" 3).applyMoves
        [(ChipType.T, 0), (ChipType.O, 1), (ChipType.O, 2), (ChipType.T, 3)]).map
      Game.check_win) = some (some 1) ∧
    ([(ChipType.T, 0), (ChipType.O, 1), (ChipType.O, 2), (ChipType.T, 3)].length < 7) := by
  constructor
  · decide
  · decide

/-- C6 amended: For every game reachable from a fresh board (with at
most 80 cells) by a sequence of fewer than 4 accepted moves, `check_win`
never reports a winner.  (The claim's bound of 7 is wrong for TOOT-OTTO:
both players may place both symbols, so a `T O O T` line can be completed
on move 4; 4 is the tight bound, since a winning window needs 4 occupied
cells and each accepted move occupies exactly one new cell.) -/
theorem C6_amended_no_winner_before_move_4 (rows cols : Nat) (ai : Bool) (p1 p2 : String)
    (d : Nat) (ms : List (ChipType × Nat)) (g' : Game)
    (hdim : rows * cols ≤ 80) (hlen : ms.length < 4)
    (happ : (Game.new rows cols ai p1 p2 d).applyMoves ms = some g') :
    g'.check_win ≠ some 1 ∧ g'.check_win ≠ some (-1) := by
  obtain ⟨hnz, hr, hc⟩ := applyMoves_NZ_dims ms (Game.new rows cols ai p1 p2 d) g' happ
  have hdummy0 : (Game.new rows cols ai p1 p2 d).dummy_grid = DummyGrid.new rows cols := by
    unfold Game.new
    split_ifs <;> rfl
  rw [hdummy0] at hnz hr hc
  rw [NZ_new] at hnz
  have hdim' : g'.dummy_grid.num_rows * g'.dummy_grid.num_cols ≤ 80 := by
    rw [hr, hc]
    exact hdim
  have hnoscan : ∀ w : Int, scanWin g'.dummy_grid = some w → False := by
    intro w hw
    have := scanWin_NZ g'.dummy_grid hdim' w hw
    omega
  constructor <;>
    (intro hcw
     unfold Game.check_win at hcw
     rcases hscan : scanWin g'.dummy_grid with _ | w
     · rw [hscan] at hcw
       split_ifs at hcw
       rcases hst : g'.state with _ | _ | _ | _ <;> rw [hst] at hcw <;> simp_all
     · exact hnoscan w hscan)

/-- Closed witness for the amended C6 (the empty move sequence on a fresh
6×7 game). -/
theorem C6_amended_no_winner_before_move_4_witness :
    (Game.new 6 7 false "P1" "P2" 3).check_win ≠ some 1 ∧
      (Game.new 6 7 false "P1" "P2" 3).check_win ≠ some (-1) :=
  C6_amended_no_winner_before_move_4 6 7 false "P1" "P2" 3 [] _
    (by norm_num) (by norm_num) rfl

end TootOtto
